import Mathlib

set_option autoImplicit false

/-!
# md_stat.c : the array topology scan

Shallow embedding of `main` of `src/md_stat.c`.  The program opens an MD
array node, asks the kernel for the array description (`GET_ARRAY_INFO`),
then asks for the disk description of every slot number `0 .. 383`
(`GET_DISK_INFO`) and files each answer either at its declared array
position or in the next free position behind the array members.

The kernel is the environment of the program: its answers are the inputs
of the model.  Everything the program does to the outside (system calls,
diagnostics, output lines) and every assignment into the `disks` array is
recorded, in program order, in a trace.  An array access outside
`disks[0 .. 383]` is undefined behaviour in C; the model returns `none`
there.
-/

namespace MdStat

/-- Capacity of the slot array: `mdu_disk_info_t disks[384]` and the bound of
both loops over it. -/
def maxSlots : Nat := 384

/-- The `errno` value for "no such device" (`ENODEV` of the Linux `errno.h`). -/
def ENODEV : Int := 19

/-- Bit numbers of the disk state flags.  They are macros of
`mdadm-3.1.4/md_p.h`, a header that is not among the source files, so the
model takes them as a parameter. -/
structure md_p_h where
  MD_DISK_FAULTY : Nat
  MD_DISK_ACTIVE : Nat
  MD_DISK_SYNC : Nat
  MD_DISK_REMOVED : Nat
deriving DecidableEq

/-- The fields of `mdu_disk_info_t` (declared in `mdadm-3.1.4/md_u.h`) that
`main` reads or writes; all of them are C `int`s. -/
structure mdu_disk_info_t where
  number : Int
  major : Int
  minor : Int
  raid_disk : Int
  state : Int
deriving DecidableEq

/-- The fields of `mdu_array_info_t` (declared in `mdadm-3.1.4/md_u.h`) that
`main` reads; all of them are C `int`s. -/
structure mdu_array_info_t where
  level : Int
  nr_disks : Int
  raid_disks : Int
  md_minor : Int
  state : Int
  active_disks : Int
  working_disks : Int
  failed_disks : Int
  spare_disks : Int
deriving DecidableEq

/-- The messages written to `stderr`, one constructor per format string. -/
inductive Diag where
  /-- The text `Bad parameters`. -/
  | bad_parameters
  /-- The text `Cannot open [%s]: %s`. -/
  | cannot_open (path : String) (err : Int)
  /-- The text `device %s does not appear to be active.` -/
  | not_active (path : String)
  /-- The text `cannot get array detail for %s: %s`. -/
  | cannot_get_array_detail (path : String) (err : Int)
  /-- The text `cannot get device detail for RAID device %d: %s`. -/
  | cannot_get_raid_device (idx : Nat) (err : Int)
  /-- The text `cannot get device detail for spare device %d: %s`. -/
  | cannot_get_spare_device (idx : Nat) (err : Int)
deriving DecidableEq

/-- The lines written to `stdout`, one constructor per format string. -/
inductive Line where
  /-- The line `MD Array [%s]:`. -/
  | md_array (path : String)
  /-- The line `level=%d, nr_disks=%d, raid_disks=%d, md_minor=%d`. -/
  | geometry (level nr_disks raid_disks md_minor : Int)
  /-- The line `clean_state=0x%x, active_disks=%d, working_disks=%d,
  failed_disks=%d, spare_disks=%d`. -/
  | health (state active_disks working_disks failed_disks spare_disks : Int)
  /-- The line `ARRAY DISK %d: MISSING`. -/
  | array_disk_missing (idx : Nat)
  /-- The line `ARRAY DISK %d: <%d:%d> [%s %s %s %s]`; the four booleans say
  which of FAULTY, ACTIVE, SYNC, REMOVED is printed. -/
  | array_disk (idx : Nat) (major minor : Int) (faulty active sync removed : Bool)
  /-- The line `OUTSIDE DISK %d: <%d:%d> [%s %s %s %s]`. -/
  | outside_disk (raid_disk major minor : Int) (faulty active sync removed : Bool)
deriving DecidableEq

/-- What the program does, in program order. -/
inductive Event where
  /-- The call `open(argv[1], O_RDONLY)`. -/
  | sys_open (path : String)
  /-- The call `ioctl(fd, GET_ARRAY_INFO, &array)`. -/
  | ioctl_GET_ARRAY_INFO
  /-- The call `ioctl(fd, GET_DISK_INFO, &disk_info)` with `disk_info.number = idx`. -/
  | ioctl_GET_DISK_INFO (idx : Nat)
  /-- The assignment `disks[disk_info.raid_disk] = disk_info`. -/
  | store_member (index : Nat) (disk_info : mdu_disk_info_t)
  /-- The assignment `disks[next_spare_idx++] = disk_info`. -/
  | store_spare (index : Nat) (disk_info : mdu_disk_info_t)
  /-- One `fprintf(stderr, ...)`. -/
  | stderr (d : Diag)
  /-- One `printf(...)`. -/
  | stdout (l : Line)
  /-- The call `close(fd)`. -/
  | sys_close
  /-- The call `exit(code)`. -/
  | exit (code : Int)
deriving DecidableEq

/-- The value an `int` has after conversion to `unsigned int`. -/
def toUnsigned (i : Int) : Nat := (i % 4294967296).toNat

/-- The record the initialisation loop writes at `disks[idx]`. -/
def sentinel (K : md_p_h) (idx : Nat) : mdu_disk_info_t :=
  { number := idx
    major := 0
    minor := 0
    raid_disk := idx
    state := Int.ofNat (1 <<< K.MD_DISK_REMOVED) }

/-- The `disks` array after the initialisation loop. -/
def initDisks (K : md_p_h) : List mdu_disk_info_t :=
  (List.range maxSlots).map (sentinel K)

/-- The variables of the scan loop, and the trace so far. -/
structure ScanState where
  disks : List mdu_disk_info_t
  next_spare_idx : Nat
  trace : List Event
deriving DecidableEq

/-- The assignment `disks[i] = r`: `none` when `i` is outside the array. -/
def store (disks : List mdu_disk_info_t) (i : Nat) (r : mdu_disk_info_t) :
    Option (List mdu_disk_info_t) :=
  if i < disks.length then some (disks.set i r) else none

/-- The test `disk_info.major == 0 && disk_info.minor == 0`. -/
def notFound (d : mdu_disk_info_t) : Prop := d.major = 0 ∧ d.minor = 0

instance (d : mdu_disk_info_t) : Decidable (notFound d) := by
  unfold notFound; infer_instance

/-- The test `disk_info.raid_disk >= 0 && disk_info.raid_disk < array.raid_disks`. -/
def inArray (raid_disks : Int) (d : mdu_disk_info_t) : Prop :=
  0 ≤ d.raid_disk ∧ d.raid_disk < raid_disks

instance (raid_disks : Int) (d : mdu_disk_info_t) : Decidable (inArray raid_disks d) := by
  unfold inArray; infer_instance

/-- One pass through the body of the scan loop, for slot number `idx`. -/
def scanStep (raid_disks : Int) (GET_DISK_INFO : Nat → Except Int mdu_disk_info_t)
    (st : ScanState) (idx : Nat) : Option ScanState :=
  let asked := st.trace ++ [Event.ioctl_GET_DISK_INFO idx]
  match GET_DISK_INFO idx with
  | .error err =>
    if idx < toUnsigned raid_disks then
      some { st with trace := asked ++ [Event.stderr (Diag.cannot_get_raid_device idx err)] }
    else
      some { st with trace := asked ++ [Event.stderr (Diag.cannot_get_spare_device idx err)] }
  | .ok disk_info =>
    if notFound disk_info then
      some { st with trace := asked }
    else if inArray raid_disks disk_info then
      (store st.disks disk_info.raid_disk.toNat disk_info).map fun disks =>
        { st with
          disks := disks
          trace := asked ++ [Event.store_member disk_info.raid_disk.toNat disk_info] }
    else if st.next_spare_idx < maxSlots then
      (store st.disks st.next_spare_idx disk_info).map fun disks =>
        { disks := disks
          next_spare_idx := (st.next_spare_idx + 1) % 4294967296
          trace := asked ++ [Event.store_spare st.next_spare_idx disk_info] }
    else
      some { st with trace := asked }

/-- The state on entry to the scan loop: `next_spare_idx = array.raid_disks`. -/
def scanInit (K : md_p_h) (raid_disks : Int) (trace : List Event) : ScanState :=
  { disks := initDisks K
    next_spare_idx := toUnsigned raid_disks
    trace := trace }

/-- The state after the passes for `idx = 0 .. n - 1` of the scan loop. -/
def scanPrefix (K : md_p_h) (raid_disks : Int)
    (GET_DISK_INFO : Nat → Except Int mdu_disk_info_t) (trace : List Event) (n : Nat) :
    Option ScanState :=
  (List.range n).foldlM (scanStep raid_disks GET_DISK_INFO) (scanInit K raid_disks trace)

/-- The state after the whole scan loop `for (idx = 0; idx < 384; ++idx)`. -/
def scan (K : md_p_h) (raid_disks : Int)
    (GET_DISK_INFO : Nat → Except Int mdu_disk_info_t) (trace : List Event) :
    Option ScanState :=
  scanPrefix K raid_disks GET_DISK_INFO trace maxSlots

/-- The topology snapshot: the `disks` array after the scan loop. -/
def buildTopology (K : md_p_h) (raid_disks : Int)
    (GET_DISK_INFO : Nat → Except Int mdu_disk_info_t) : Option (List mdu_disk_info_t) :=
  (scan K raid_disks GET_DISK_INFO []).map ScanState.disks

/-- The two variables of the scan loop that the snapshot depends on. -/
def core (st : ScanState) : List mdu_disk_info_t × Nat := (st.disks, st.next_spare_idx)

/-- The record the pass for slot `idx` goes on to file: the answer of a
successful query whose major and minor are not both zero. -/
def placed (GET_DISK_INFO : Nat → Except Int mdu_disk_info_t) (idx : Nat) :
    Option mdu_disk_info_t :=
  match GET_DISK_INFO idx with
  | .error _ => none
  | .ok d => if notFound d then none else some d

/-- The effect of one pass on `disks` and `next_spare_idx`, given the record it files. -/
def place (raid_disks : Int) (c : List mdu_disk_info_t × Nat) :
    Option mdu_disk_info_t → Option (List mdu_disk_info_t × Nat)
  | none => some c
  | some d =>
    if inArray raid_disks d then
      (store c.1 d.raid_disk.toNat d).map fun disks => (disks, c.2)
    else if c.2 < maxSlots then
      (store c.1 c.2 d).map fun disks => (disks, (c.2 + 1) % 4294967296)
    else some c

/-- The variables `disks` and `next_spare_idx` after the passes `0 .. n - 1`. -/
def coreRun (K : md_p_h) (raid_disks : Int)
    (GET_DISK_INFO : Nat → Except Int mdu_disk_info_t) :
    Nat → Option (List mdu_disk_info_t × Nat)
  | 0 => some (initDisks K, toUnsigned raid_disks)
  | n + 1 =>
    (coreRun K raid_disks GET_DISK_INFO n).bind fun c =>
      place raid_disks c (placed GET_DISK_INFO n)

/-- The record of slot `idx` when it is filed behind the array members. -/
def overflowAt (raid_disks : Int) (GET_DISK_INFO : Nat → Except Int mdu_disk_info_t)
    (idx : Nat) : Option mdu_disk_info_t :=
  (placed GET_DISK_INFO idx).filter fun d => ¬ inArray raid_disks d

/-- The overflow records among the slots `0 .. n - 1`, in the order of the queries. -/
def overflowRecords (raid_disks : Int) (GET_DISK_INFO : Nat → Except Int mdu_disk_info_t)
    (n : Nat) : List mdu_disk_info_t :=
  (List.range n).filterMap (overflowAt raid_disks GET_DISK_INFO)

/-- The shape `disks` and `next_spare_idx` keep during the scan of an array
with `raid_disks` members. -/
def Bounds (rd : Int) (c : List mdu_disk_info_t × Nat) : Prop :=
  c.1.length = 384 ∧ rd.toNat ≤ c.2 ∧ c.2 ≤ 384

/-- What the positions behind the array members hold after the passes
`0 .. n - 1`: the overflow records in query order as far as they fit, then
sentinels; the cursor stands behind the last one filed. -/
def OverflowInv (K : md_p_h) (rd : Int) (q : Nat → Except Int mdu_disk_info_t) (n : Nat)
    (c : List mdu_disk_info_t × Nat) : Prop :=
  c.2 = min (rd.toNat + (overflowRecords rd q n).length) 384 ∧
  (∀ k, k < (overflowRecords rd q n).length → rd.toNat + k < 384 →
    c.1[rd.toNat + k]? = (overflowRecords rd q n)[k]?) ∧
  (∀ p, rd.toNat + (overflowRecords rd q n).length ≤ p → p < 384 →
    c.1[p]? = some (sentinel K p))

/-- What the member positions hold after the passes `0 .. n - 1`: the sentinel
when no filed record declared the position, otherwise the record of the last
pass that declared it. -/
def MemberInv (K : md_p_h) (rd : Int) (q : Nat → Except Int mdu_disk_info_t) (n : Nat)
    (c : List mdu_disk_info_t × Nat) : Prop :=
  ∀ p, p < rd.toNat →
    (c.1[p]? = some (sentinel K p) ∧
      ∀ i d, i < n → placed q i = some d → d.raid_disk ≠ (p : Int)) ∨
    (∃ i d, i < n ∧ placed q i = some d ∧ d.raid_disk = (p : Int) ∧ c.1[p]? = some d ∧
      ∀ j e, i < j → j < n → placed q j = some e → e.raid_disk ≠ (p : Int))

/-- The test `disks[idx].state & 1<<bit` of the output loops. -/
def flag (state : Int) (bit : Nat) : Bool := state.testBit bit

/-- The line the first output loop prints for position `idx` holding `d`. -/
def arrayDiskLine (K : md_p_h) (idx : Nat) (d : mdu_disk_info_t) : Line :=
  if notFound d then Line.array_disk_missing idx
  else Line.array_disk idx d.major d.minor (flag d.state K.MD_DISK_FAULTY)
    (flag d.state K.MD_DISK_ACTIVE) (flag d.state K.MD_DISK_SYNC)
    (flag d.state K.MD_DISK_REMOVED)

/-- The line the second output loop prints for a position holding `d`, if any. -/
def outsideDiskLine (K : md_p_h) (d : mdu_disk_info_t) : Option Line :=
  if notFound d then none
  else some (Line.outside_disk d.raid_disk d.major d.minor (flag d.state K.MD_DISK_FAULTY)
    (flag d.state K.MD_DISK_ACTIVE) (flag d.state K.MD_DISK_SYNC)
    (flag d.state K.MD_DISK_REMOVED))

/-- The loop `for (idx = 0; idx < array.raid_disks; ++idx)` over `disks[idx]`;
`none` when it reads outside the array. -/
def printArrayDisks (K : md_p_h) (disks : List mdu_disk_info_t) (raid_disks : Int) :
    Option (List Line) :=
  (List.range (toUnsigned raid_disks)).mapM fun idx => (disks[idx]?).map (arrayDiskLine K idx)

/-- The loop `for (idx = array.raid_disks; idx < 384; ++idx)` over `disks[idx]`. -/
def printOutsideDisks (K : md_p_h) (disks : List mdu_disk_info_t) (raid_disks : Int) :
    Option (List Line) :=
  (((List.range maxSlots).filter fun idx => toUnsigned raid_disks ≤ idx).mapM
    fun idx => (disks[idx]?).map (outsideDiskLine K)).map fun ls => ls.filterMap id

/-- The answers of the operating system to one run of the program. -/
structure Env where
  argv : List String
  open_result : Except Int Int
  GET_ARRAY_INFO : Except Int mdu_array_info_t
  GET_DISK_INFO : Nat → Except Int mdu_disk_info_t

/-- One finished run: what the program did and its exit status. -/
structure Outcome where
  trace : List Event
  status : Int
deriving DecidableEq

/-- The function `main` of `md_stat.c`. -/
def main (K : md_p_h) (env : Env) : Option Outcome :=
  match env.argv with
  | _ :: path :: _ =>
    match env.open_result with
    | .error err =>
      some ⟨[Event.sys_open path, Event.stderr (Diag.cannot_open path err), Event.exit 1], 1⟩
    | .ok _ =>
      match env.GET_ARRAY_INFO with
      | .error err =>
        let d := if err = ENODEV then Diag.not_active path
          else Diag.cannot_get_array_detail path err
        some ⟨[Event.sys_open path, Event.ioctl_GET_ARRAY_INFO, Event.stderr d,
          Event.sys_close, Event.exit 1], 1⟩
      | .ok array =>
        (scan K array.raid_disks env.GET_DISK_INFO
          [Event.sys_open path, Event.ioctl_GET_ARRAY_INFO]).bind fun st =>
        (printArrayDisks K st.disks array.raid_disks).bind fun members =>
        (printOutsideDisks K st.disks array.raid_disks).map fun outside =>
          ⟨st.trace ++ ([Line.md_array path,
              Line.geometry array.level array.nr_disks array.raid_disks array.md_minor,
              Line.health array.state array.active_disks array.working_disks
                array.failed_disks array.spare_disks] ++ members ++ outside).map Event.stdout
            ++ [Event.sys_close], 0⟩
  | _ => some ⟨[Event.stderr Diag.bad_parameters, Event.exit 1], 1⟩

/-- The query source that answers slot `i` with position `i` of a snapshot. -/
def replay (disks : List mdu_disk_info_t) (err : Int) (i : Nat) : Except Int mdu_disk_info_t :=
  match disks[i]? with
  | some d => .ok d
  | none => .error err

/-- The query source `q` with the answer of slot `i` replaced by `r`. -/
def withAnswer (q : Nat → Except Int mdu_disk_info_t) (i : Nat)
    (r : Except Int mdu_disk_info_t) (j : Nat) : Except Int mdu_disk_info_t :=
  if j = i then r else q j

/-- The query source `q` in which every overflow record that is seen after
`384 - raid_disks` earlier ones is replaced by a failed query. -/
def dropExcess (raid_disks : Int) (q : Nat → Except Int mdu_disk_info_t) (err : Int)
    (i : Nat) : Except Int mdu_disk_info_t :=
  match overflowAt raid_disks q i with
  | some _ =>
    if maxSlots - raid_disks.toNat ≤ (overflowRecords raid_disks q i).length then .error err
    else q i
  | none => q i

/-- The flag bit numbers of the Linux `md_p.h`, for the concrete examples. -/
def linuxFlags : md_p_h := ⟨0, 1, 2, 3⟩

/-- A query source for the concrete examples: slot `i` answers `found i`
when that is a record and fails with `ENODEV` otherwise. -/
def answers (found : List (Nat × mdu_disk_info_t)) (i : Nat) : Except Int mdu_disk_info_t :=
  match found.lookup i with
  | some d => .ok d
  | none => .error ENODEV

/-- Scenario A: slots 0 to 3 answer with the active, in-sync members 0 to 3 and
every other query fails. -/
def scenarioA : Nat → Except Int mdu_disk_info_t :=
  answers [(0, ⟨0, 8, 0, 0, 6⟩), (1, ⟨1, 8, 16, 1, 6⟩), (2, ⟨2, 8, 32, 2, 6⟩),
    (3, ⟨3, 8, 48, 3, 6⟩)]

/-- Scenario B: slot 0 answers for position 0, slot 2 answers with
`raid_disk = 5`, every other query fails. -/
def scenarioB : Nat → Except Int mdu_disk_info_t :=
  answers [(0, ⟨0, 8, 0, 0, 6⟩), (2, ⟨2, 8, 32, 5, 0⟩)]

/-- What the scan of the query source `q` may record in the trace: a member
assignment below `raid_disks`, a spare assignment from `raid_disks` on and
below the cursor `ns`, and a diagnostic only for a slot whose query failed. -/
def goodEvent (rd : Int) (q : Nat → Except Int mdu_disk_info_t) (ns : Nat) : Event → Prop
  | Event.store_member i _ => i < rd.toNat
  | Event.store_spare i _ => rd.toNat ≤ i ∧ i < ns
  | Event.stderr d => ∃ idx err, q idx = .error err ∧
      (d = Diag.cannot_get_raid_device idx err ∨ d = Diag.cannot_get_spare_device idx err)
  | _ => True

/-- The three regions of a finished snapshot whose cursor ended at `ns`:
member positions hold their sentinel or a filed record declaring that very
position, the positions from `raid_disks` up to the cursor hold filed overflow
records, the positions from the cursor on hold their sentinel. -/
def Regions (K : md_p_h) (rd : Int) (disks : List mdu_disk_info_t) (ns : Nat) : Prop :=
  ∀ p, p < 384 → ∃ x, disks[p]? = some x ∧
    ((p < rd.toNat ∧ (x = sentinel K p ∨ (¬ notFound x ∧ x.raid_disk = (p : Int)))) ∨
     (rd.toNat ≤ p ∧ p < ns ∧ ¬ notFound x ∧ ¬ inArray rd x) ∨
     (rd.toNat ≤ p ∧ ns ≤ p ∧ x = sentinel K p))

/-- Scenario with a full array: `raid_disks = 383` leaves one position behind
the members, and slots 0 and 1 both answer with records outside the array. -/
def scenarioFull : Nat → Except Int mdu_disk_info_t :=
  answers [(0, ⟨0, 8, 0, -1, 0⟩), (1, ⟨1, 8, 16, -1, 0⟩)]

/-- Scenario D: the node opens, the array query fails with `ENODEV`. -/
def scenarioD : Env :=
  { argv := ["md_stat", "/dev/md0"]
    open_result := .ok 3
    GET_ARRAY_INFO := .error ENODEV
    GET_DISK_INFO := scenarioA }

end MdStat

/-!
# udev_monitor.c : enumerate, then watch

Shallow embedding of `main` of `src/udev_monitor.c`.  The program creates
the udev context, sets up and enables a monitor for block devices, lists
the block devices that exist, prints each one with `print_device_props`,
and then polls the monitor forever, printing every device it receives.

The library is the environment of the program: what its calls return is
the input of the model, and the calls the program makes are recorded, in
program order, in a trace.  The loop `while (1)` never ends, so a run of the
model is the program up to the end of a given finite number of passes of
the loop, one poll outcome per pass.
-/

namespace UdevMonitor

/-- A device object, by the attributes `print_device_props` prints first:
`udev_device_get_syspath`, `udev_device_get_action` (NULL for a device that
was enumerated) and `udev_device_get_seqnum`. -/
structure udev_device where
  syspath : String
  action : Option String
  seqnum : Nat
deriving DecidableEq

/-- The calls the program makes.  Calls whose result the program stores carry
it; `print_device_props` carries the pointer it is given (`none` for NULL). -/
inductive Call where
  /-- The call `udev_new()`; `ok` is whether the result is not NULL. -/
  | udev_new (ok : Bool)
  /-- The call `printf("Can't create udev\n")`. -/
  | printf_cant_create_udev
  /-- The call `exit(code)`. -/
  | exit (code : Int)
  /-- The call `udev_monitor_new_from_netlink(udev, "udev")`; `ok` is whether
  the result is not NULL. -/
  | udev_monitor_new_from_netlink (ok : Bool)
  /-- The call `udev_monitor_filter_add_match_subsystem_devtype(mon, "block", NULL)`. -/
  | udev_monitor_filter_add_match_subsystem_devtype
  /-- The call `udev_monitor_enable_receiving(mon)` and the value it returns,
  which the program does not look at. -/
  | udev_monitor_enable_receiving (result : Int)
  /-- The call `udev_monitor_get_fd(mon)`. -/
  | udev_monitor_get_fd
  /-- The call `udev_enumerate_new(udev)`. -/
  | udev_enumerate_new
  /-- The call `udev_enumerate_add_match_subsystem(enumerate, "block")`. -/
  | udev_enumerate_add_match_subsystem
  /-- The call `udev_enumerate_scan_devices(enumerate)`. -/
  | udev_enumerate_scan_devices
  /-- The call `udev_enumerate_get_list_entry(enumerate)`. -/
  | udev_enumerate_get_list_entry
  /-- The call `udev_list_entry_get_name(dev_list_entry)` and the path it returns. -/
  | udev_list_entry_get_name (path : String)
  /-- The call `udev_device_new_from_syspath(udev, path)`. -/
  | udev_device_new_from_syspath (path : String)
  /-- The call `print_device_props(dev)`: one item of the output. -/
  | print_device_props (dev : Option udev_device)
  /-- The call `udev_device_unref(dev)`. -/
  | udev_device_unref
  /-- The call `udev_enumerate_unref(enumerate)`. -/
  | udev_enumerate_unref
  /-- The call `select(fd+1, &fds, NULL, NULL, &tv)` with a zero timeout. -/
  | select
  /-- The call `udev_monitor_receive_device(mon)`. -/
  | udev_monitor_receive_device
  /-- The call `printf("No Device from receive_device(). An error occured.\n")`. -/
  | printf_no_device
  /-- The call `usleep(250*1000)`. -/
  | usleep
  /-- The call `fflush(stdout)`. -/
  | fflush
deriving DecidableEq

/-- What one pass of the polling loop finds. -/
inductive Poll where
  /-- The test `ret > 0 && FD_ISSET(fd, &fds)` fails. -/
  | not_ready
  /-- The descriptor is ready and `udev_monitor_receive_device` returns `dev`. -/
  | received (dev : udev_device)
  /-- The descriptor is ready and `udev_monitor_receive_device` returns NULL. -/
  | receive_failed
deriving DecidableEq

/-- What the library returns to the calls made before the polling loop. -/
structure Env where
  /-- Whether `udev_new()` returns an object. -/
  udev_new : Bool
  /-- Whether `udev_monitor_new_from_netlink` returns an object. -/
  udev_monitor_new_from_netlink : Bool
  /-- The value `udev_monitor_enable_receiving` returns: negative on failure. -/
  udev_monitor_enable_receiving : Int
  /-- The names of the list entries the enumeration holds, in list order. -/
  devices : List String
  /-- The result of `udev_device_new_from_syspath` for a path (`none` for NULL). -/
  udev_device_new_from_syspath : String → Option udev_device

/-- A run so far: the calls made, and the exit status once the process has
exited (`none` while it is still in the polling loop). -/
structure Run where
  trace : List Call
  status : Option Int
deriving DecidableEq

/-- The section of `main` that sets up and starts the monitor. -/
def subscribe (env : Env) : List Call :=
  [Call.udev_monitor_new_from_netlink env.udev_monitor_new_from_netlink,
   Call.udev_monitor_filter_add_match_subsystem_devtype,
   Call.udev_monitor_enable_receiving env.udev_monitor_enable_receiving,
   Call.udev_monitor_get_fd]

/-- The body of `udev_list_entry_foreach` for one list entry. -/
def foreachBody (env : Env) (path : String) : List Call :=
  [Call.udev_list_entry_get_name path,
   Call.udev_device_new_from_syspath path,
   Call.print_device_props (env.udev_device_new_from_syspath path),
   Call.udev_device_unref]

/-- The section of `main` that lists the devices and prints each of them. -/
def enumerate (env : Env) : List Call :=
  [Call.udev_enumerate_new,
   Call.udev_enumerate_add_match_subsystem,
   Call.udev_enumerate_scan_devices,
   Call.udev_enumerate_get_list_entry]
  ++ env.devices.flatMap (foreachBody env)
  ++ [Call.udev_enumerate_unref]

/-- One pass through the body of `while (1)`. -/
def pollPass : Poll → List Call
  | Poll.not_ready => [Call.select, Call.usleep, Call.fflush]
  | Poll.received dev =>
    [Call.select, Call.udev_monitor_receive_device, Call.print_device_props (some dev),
     Call.udev_device_unref, Call.usleep, Call.fflush]
  | Poll.receive_failed =>
    [Call.select, Call.udev_monitor_receive_device, Call.printf_no_device,
     Call.usleep, Call.fflush]

/-- The passes of `while (1)` for the given poll outcomes, one after the other. -/
def pollLoop : List Poll → List Call
  | [] => []
  | p :: rest => pollPass p ++ pollLoop rest

/-- The function `main` of `udev_monitor.c`, up to the end of the loop pass
of the last given poll outcome.  Only the result of `udev_new` is tested.
When `udev_monitor_new_from_netlink` returns NULL the monitor calls, the
enumeration and the printing of the initial items are made all the same; the
first pass of `while (1)` then hands the descriptor of a monitor that does not
exist to `FD_SET`, which is undefined: the model returns `none` for a run
that enters that pass. -/
def main (env : Env) (polls : List Poll) : Option Run :=
  if env.udev_new then
    match env.udev_monitor_new_from_netlink, polls with
    | true, _ =>
      some
        { trace := [Call.udev_new true] ++ subscribe env ++ enumerate env ++ pollLoop polls
          status := none }
    | false, [] =>
      some
        { trace := [Call.udev_new true] ++ subscribe env ++ enumerate env
          status := none }
    | false, _ :: _ => none
  else
    some
      { trace := [Call.udev_new false, Call.printf_cant_create_udev, Call.exit 1]
        status := some 1 }

/-- The item a call emits: the device `print_device_props` is given. -/
def item : Call → Option (Option udev_device)
  | Call.print_device_props dev => some dev
  | _ => none

/-- The emitted timeline of a trace: its items, in order. -/
def timeline (trace : List Call) : List (Option udev_device) :=
  trace.filterMap item

/-- The device a poll outcome delivers. -/
def delivered : Poll → Option udev_device
  | Poll.received dev => some dev
  | _ => none

/-- The diagnostics of a trace: its `No Device from receive_device()` lines. -/
def diagnostics (trace : List Call) : Nat :=
  trace.count Call.printf_no_device

/-- Whether a call belongs to making the snapshot: the enumeration scan or the
emission of an item. -/
def isSnapshotCall : Call → Bool
  | Call.udev_enumerate_scan_devices => true
  | Call.print_device_props _ => true
  | _ => false

/-- Scenario C: the library answers every call, three block devices exist. -/
def scenarioC : Env :=
  { udev_new := true
    udev_monitor_new_from_netlink := true
    udev_monitor_enable_receiving := 0
    devices := ["/sys/block/sda", "/sys/block/sdb", "/sys/block/sdc"]
    udev_device_new_from_syspath := fun path => some ⟨path, none, 0⟩ }

/-- Scenario C: a fourth device is added and then changes. -/
def scenarioCPolls : List Poll :=
  [Poll.not_ready, Poll.received ⟨"/sys/block/sdd", some "add", 1001⟩,
   Poll.received ⟨"/sys/block/sdd", some "change", 1002⟩]

/-- A run in which the monitor is created but `udev_monitor_enable_receiving`
fails, with one block device present. -/
def enableFails : Env :=
  { udev_new := true
    udev_monitor_new_from_netlink := true
    udev_monitor_enable_receiving := -1
    devices := ["/sys/block/sda"]
    udev_device_new_from_syspath := fun path => some ⟨path, none, 0⟩ }

/-- The event channel is armed: the monitor exists and
`udev_monitor_enable_receiving` did not return a negative value. -/
def armed (env : Env) : Prop :=
  env.udev_monitor_new_from_netlink = true ∧ 0 ≤ env.udev_monitor_enable_receiving

instance (env : Env) : Decidable (armed env) := by
  unfold armed; infer_instance

/-- In a trace, every call that belongs to making the snapshot stands behind
the first four calls, and the second, third and fourth call are the creation
of the monitor, its filter and the enabling of receiving, with the results
the library gave. -/
def subscribedFirst (env : Env) (calls : List Call) : Prop :=
  ∀ i c, calls[i]? = some c → isSnapshotCall c = true →
    3 < i ∧
    calls[1]? = some (Call.udev_monitor_new_from_netlink env.udev_monitor_new_from_netlink) ∧
    calls[2]? = some Call.udev_monitor_filter_add_match_subsystem_devtype ∧
    calls[3]? = some (Call.udev_monitor_enable_receiving env.udev_monitor_enable_receiving)

/-- A run in which `udev_monitor_new_from_netlink` returns NULL (and the
enabling call, given the null pointer, returns `-EINVAL`), with one block
device present. -/
def monitorNull : Env :=
  { udev_new := true
    udev_monitor_new_from_netlink := false
    udev_monitor_enable_receiving := -22
    devices := ["/sys/block/sda"]
    udev_device_new_from_syspath := fun path => some ⟨path, none, 0⟩ }

end UdevMonitor

namespace MdStat

theorem maxSlots_eq : maxSlots = 384 := rfl

theorem toUnsigned_of_le {rd : Int} (h0 : 0 ≤ rd) (h1 : rd ≤ 384) :
    toUnsigned rd = rd.toNat := by
  unfold toUnsigned
  rw [Int.emod_eq_of_lt h0 (by omega)]

theorem scanPrefix_zero (K : md_p_h) (rd : Int) (q : Nat → Except Int mdu_disk_info_t)
    (tr : List Event) : scanPrefix K rd q tr 0 = some (scanInit K rd tr) := rfl

theorem scanPrefix_succ (K : md_p_h) (rd : Int) (q : Nat → Except Int mdu_disk_info_t)
    (tr : List Event) (n : Nat) :
    scanPrefix K rd q tr (n + 1) = (scanPrefix K rd q tr n).bind fun st => scanStep rd q st n := by
  unfold scanPrefix
  rw [List.range_succ, List.foldlM_append]
  simp [List.foldlM]

theorem scanStep_core (rd : Int) (q : Nat → Except Int mdu_disk_info_t) (st : ScanState)
    (idx : Nat) : (scanStep rd q st idx).map core = place rd (core st) (placed q idx) := by
  unfold scanStep placed
  cases hq : q idx with
  | error err =>
    by_cases h : idx < toUnsigned rd <;> simp [h, place, core]
  | ok d =>
    by_cases hz : notFound d
    · simp [hz, place, core]
    · by_cases hin : inArray rd d
      · simp only [hz, hin, if_true, if_false, place, core]
        cases store st.disks d.raid_disk.toNat d <;> rfl
      · by_cases hs : st.next_spare_idx < maxSlots
        · simp only [hz, hin, hs, if_true, if_false, place, core]
          cases store st.disks st.next_spare_idx d <;> rfl
        · simp [hz, hin, hs, place, core]

theorem scanPrefix_core (K : md_p_h) (rd : Int) (q : Nat → Except Int mdu_disk_info_t)
    (tr : List Event) (n : Nat) : (scanPrefix K rd q tr n).map core = coreRun K rd q n := by
  induction n with
  | zero => rfl
  | succ n ih =>
    rw [scanPrefix_succ, coreRun, ← ih]
    cases scanPrefix K rd q tr n with
    | none => rfl
    | some st => simpa using scanStep_core rd q st n

theorem buildTopology_eq (K : md_p_h) (rd : Int) (q : Nat → Except Int mdu_disk_info_t) :
    buildTopology K rd q = (coreRun K rd q maxSlots).map Prod.fst := by
  unfold buildTopology scan
  rw [← scanPrefix_core K rd q [] maxSlots]
  cases scanPrefix K rd q [] maxSlots <;> rfl

theorem initDisks_length (K : md_p_h) : (initDisks K).length = 384 := by
  simp [initDisks, maxSlots_eq]

theorem initDisks_getElem? (K : md_p_h) {p : Nat} (hp : p < 384) :
    (initDisks K)[p]? = some (sentinel K p) := by
  simp [initDisks, maxSlots_eq, List.getElem?_range hp]

theorem sentinel_notFound (K : md_p_h) (p : Nat) : notFound (sentinel K p) :=
  ⟨rfl, rfl⟩

theorem placed_eq_some {q : Nat → Except Int mdu_disk_info_t} {i : Nat} {d : mdu_disk_info_t} :
    placed q i = some d ↔ q i = .ok d ∧ ¬ notFound d := by
  unfold placed
  cases hq : q i with
  | error e => simp
  | ok x =>
    by_cases hx : notFound x
    · simp only [hx, if_true]
      constructor
      · intro h; cases h
      · rintro ⟨h, h2⟩
        cases h
        exact absurd hx h2
    · simp only [hx, if_false]
      constructor
      · intro h; cases h; exact ⟨rfl, hx⟩
      · rintro ⟨h, -⟩; cases h; rfl

theorem place_member {rd : Int} {c : List mdu_disk_info_t × Nat} {d : mdu_disk_info_t}
    (h1 : rd ≤ 384) (hc : Bounds rd c) (hin : inArray rd d) :
    place rd c (some d) = some (c.1.set d.raid_disk.toNat d, c.2) := by
  have hlt : d.raid_disk.toNat < c.1.length := by
    have := hin.1; have := hin.2; have := hc.1; omega
  simp [place, hin, store, hlt]

theorem place_spare {rd : Int} {c : List mdu_disk_info_t × Nat} {d : mdu_disk_info_t}
    (hc : Bounds rd c) (hin : ¬ inArray rd d) (hs : c.2 < 384) :
    place rd c (some d) = some (c.1.set c.2 d, c.2 + 1) := by
  have hlt : c.2 < c.1.length := by have := hc.1; omega
  have hmod : (c.2 + 1) % 4294967296 = c.2 + 1 := by omega
  simp [place, hin, store, hlt, hs, maxSlots_eq, hmod]

theorem place_full {rd : Int} {c : List mdu_disk_info_t × Nat} {d : mdu_disk_info_t}
    (hin : ¬ inArray rd d) (hs : ¬ c.2 < 384) :
    place rd c (some d) = some c := by
  simp [place, hin, hs, maxSlots_eq]

/-- Induction along the scan loop of an array with `0 ≤ raid_disks ≤ 384`: the
loop reaches every pass, and a property kept by the four ways a pass can end
holds after each pass. -/
theorem coreRun_induction (K : md_p_h) {rd : Int} (q : Nat → Except Int mdu_disk_info_t)
    (h0 : 0 ≤ rd) (h1 : rd ≤ 384) (P : Nat → List mdu_disk_info_t × Nat → Prop)
    (hinit : P 0 (initDisks K, rd.toNat))
    (hnone : ∀ n c, Bounds rd c → P n c → placed q n = none → P (n + 1) c)
    (hmem : ∀ n c d, Bounds rd c → P n c → placed q n = some d → inArray rd d →
      P (n + 1) (c.1.set d.raid_disk.toNat d, c.2))
    (hspare : ∀ n c d, Bounds rd c → P n c → placed q n = some d → ¬ inArray rd d →
      c.2 < 384 → P (n + 1) (c.1.set c.2 d, c.2 + 1))
    (hfull : ∀ n c d, Bounds rd c → P n c → placed q n = some d → ¬ inArray rd d →
      c.2 = 384 → P (n + 1) c) :
    ∀ n, ∃ c, coreRun K rd q n = some c ∧ Bounds rd c ∧ P n c := by
  intro n
  induction n with
  | zero =>
    refine ⟨(initDisks K, rd.toNat), ?_, ⟨initDisks_length K, le_refl _, ?_⟩, hinit⟩
    · simp [coreRun, toUnsigned_of_le h0 h1]
    · show rd.toNat ≤ 384
      omega
  | succ n ih =>
    obtain ⟨c, hrun, hb, hP⟩ := ih
    simp only [coreRun, hrun, Option.some_bind]
    cases hpl : placed q n with
    | none => exact ⟨c, rfl, hb, hnone n c hb hP hpl⟩
    | some d =>
      by_cases hin : inArray rd d
      · refine ⟨_, place_member h1 hb hin, ⟨?_, hb.2.1, hb.2.2⟩, hmem n c d hb hP hpl hin⟩
        simpa using hb.1
      · by_cases hs : c.2 < 384
        · refine ⟨_, place_spare hb hin hs, ⟨?_, ?_, ?_⟩, hspare n c d hb hP hpl hin hs⟩
          · simpa using hb.1
          · have := hb.2.1
            show rd.toNat ≤ c.2 + 1
            omega
          · show c.2 + 1 ≤ 384
            omega
        · have h384 : c.2 = 384 := by have := hb.2.2; omega
          exact ⟨c, place_full hin hs, hb, hfull n c d hb hP hpl hin h384⟩

theorem overflowRecords_succ (rd : Int) (q : Nat → Except Int mdu_disk_info_t) (n : Nat) :
    overflowRecords rd q (n + 1) = overflowRecords rd q n ++ (overflowAt rd q n).toList := by
  unfold overflowRecords
  rw [List.range_succ, List.filterMap_append]
  cases h : overflowAt rd q n <;> simp [List.filterMap, h]

theorem overflowAt_of_none {rd : Int} {q : Nat → Except Int mdu_disk_info_t} {n : Nat}
    (h : placed q n = none) : overflowAt rd q n = none := by
  simp [overflowAt, h]

theorem overflowAt_of_member {rd : Int} {q : Nat → Except Int mdu_disk_info_t} {n : Nat}
    {d : mdu_disk_info_t} (h : placed q n = some d) (hin : inArray rd d) :
    overflowAt rd q n = none := by
  simp [overflowAt, h, Option.filter, hin]

theorem overflowAt_of_outside {rd : Int} {q : Nat → Except Int mdu_disk_info_t} {n : Nat}
    {d : mdu_disk_info_t} (h : placed q n = some d) (hin : ¬ inArray rd d) :
    overflowAt rd q n = some d := by
  simp [overflowAt, h, Option.filter, hin]

theorem overflowAt_eq_some {rd : Int} {q : Nat → Except Int mdu_disk_info_t} {n : Nat}
    {d : mdu_disk_info_t} (h : overflowAt rd q n = some d) :
    placed q n = some d ∧ ¬ inArray rd d := by
  unfold overflowAt at h
  cases hp : placed q n with
  | none => simp [hp] at h
  | some x =>
    by_cases hin : inArray rd x
    · simp [hp, Option.filter, hin] at h
    · simp [hp, Option.filter, hin] at h
      subst h
      exact ⟨rfl, hin⟩

theorem coreRun_overflow (K : md_p_h) {rd : Int} (q : Nat → Except Int mdu_disk_info_t)
    (h0 : 0 ≤ rd) (h1 : rd ≤ 384) (n : Nat) :
    ∃ c, coreRun K rd q n = some c ∧ Bounds rd c ∧ OverflowInv K rd q n c := by
  apply coreRun_induction K q h0 h1 (OverflowInv K rd q)
  · refine ⟨?_, ?_, ?_⟩
    · simp only [overflowRecords, List.range_zero, List.filterMap_nil, List.length_nil]
      omega
    · intro k hk
      simp [overflowRecords] at hk
    · intro p _ hp
      exact initDisks_getElem? K hp
  · intro n c _ hP hpl
    unfold OverflowInv at *
    rw [overflowRecords_succ, overflowAt_of_none hpl]
    simpa using hP
  · intro n c d hb hP hpl hin
    unfold OverflowInv at *
    rw [overflowRecords_succ, overflowAt_of_member hpl hin]
    simp only [Option.toList, List.append_nil]
    have hd0 := hin.1
    have hd1 := hin.2
    refine ⟨hP.1, ?_, ?_⟩
    · intro k hk hk2
      rw [List.getElem?_set_ne (by omega)]
      exact hP.2.1 k hk hk2
    · intro p hp hp2
      rw [List.getElem?_set_ne (by omega)]
      exact hP.2.2 p hp hp2
  · intro n c d hb hP hpl hin hs
    unfold OverflowInv at *
    rw [overflowRecords_succ, overflowAt_of_outside hpl hin]
    simp only [Option.toList, List.length_append, List.length_singleton]
    obtain ⟨hns, hov, hsent⟩ := hP
    have hc2 : c.2 = rd.toNat + (overflowRecords rd q n).length := by omega
    refine ⟨?_, ?_, ?_⟩
    · show c.2 + 1 = _
      omega
    · intro k hk hk2
      show (c.1.set c.2 d)[rd.toNat + k]? = _
      by_cases hkl : k < (overflowRecords rd q n).length
      · rw [List.getElem?_set_ne (by omega), List.getElem?_append_left hkl]
        exact hov k hkl hk2
      · have hke : k = (overflowRecords rd q n).length := by omega
        subst hke
        rw [← hc2, List.getElem?_concat_length]
        exact List.getElem?_set_self (by have := hb.1; omega)
    · intro p hp hp2
      show (c.1.set c.2 d)[p]? = _
      rw [List.getElem?_set_ne (by omega)]
      exact hsent p (by omega) hp2
  · intro n c d hb hP hpl hin hs
    unfold OverflowInv at *
    rw [overflowRecords_succ, overflowAt_of_outside hpl hin]
    simp only [Option.toList, List.length_append, List.length_singleton]
    obtain ⟨hns, hov, hsent⟩ := hP
    refine ⟨by omega, ?_, ?_⟩
    · intro k hk hk2
      have hkl : k < (overflowRecords rd q n).length := by omega
      rw [List.getElem?_append_left hkl]
      exact hov k hkl hk2
    · intro p hp hp2
      exact hsent p (by omega) hp2

theorem coreRun_member (K : md_p_h) {rd : Int} (q : Nat → Except Int mdu_disk_info_t)
    (h0 : 0 ≤ rd) (h1 : rd ≤ 384) (n : Nat) :
    ∃ c, coreRun K rd q n = some c ∧ Bounds rd c ∧ MemberInv K rd q n c := by
  apply coreRun_induction K q h0 h1 (MemberInv K rd q)
  · intro p hp
    left
    refine ⟨initDisks_getElem? K (by omega), ?_⟩
    intro i d hi
    omega
  · intro n c _ hP hpl p hp
    rcases hP p hp with ⟨hs, hno⟩ | ⟨i, d, hi, hq, hr, hd, hlast⟩
    · left
      refine ⟨hs, ?_⟩
      intro i d hi hq
      rcases Nat.lt_succ_iff_lt_or_eq.mp hi with h | h
      · exact hno i d h hq
      · subst h; rw [hpl] at hq; cases hq
    · right
      refine ⟨i, d, by omega, hq, hr, hd, ?_⟩
      intro j e hij hj hqj
      rcases Nat.lt_succ_iff_lt_or_eq.mp hj with h | h
      · exact hlast j e hij h hqj
      · subst h; rw [hpl] at hqj; cases hqj
  · intro n c d hb hP hpl hin p hp
    have hd0 := hin.1
    by_cases hpd : d.raid_disk = (p : Int)
    · right
      refine ⟨n, d, by omega, hpl, hpd, ?_, ?_⟩
      · have hidx : d.raid_disk.toNat = p := by omega
        show (c.1.set d.raid_disk.toNat d)[p]? = some d
        rw [hidx]
        exact List.getElem?_set_self (by have := hb.1; omega)
      · intro j e hij hj
        omega
    · have hne : d.raid_disk.toNat ≠ p := by omega
      rcases hP p hp with ⟨hs, hno⟩ | ⟨i, x, hi, hq, hr, hx, hlast⟩
      · left
        refine ⟨?_, ?_⟩
        · show (c.1.set d.raid_disk.toNat d)[p]? = _
          rw [List.getElem?_set_ne hne]
          exact hs
        · intro i e hi hq
          rcases Nat.lt_succ_iff_lt_or_eq.mp hi with h | h
          · exact hno i e h hq
          · subst h; rw [hpl] at hq; cases hq; exact hpd
      · right
        refine ⟨i, x, by omega, hq, hr, ?_, ?_⟩
        · show (c.1.set d.raid_disk.toNat d)[p]? = _
          rw [List.getElem?_set_ne hne]
          exact hx
        · intro j e hij hj hqj
          rcases Nat.lt_succ_iff_lt_or_eq.mp hj with h | h
          · exact hlast j e hij h hqj
          · subst h; rw [hpl] at hqj; cases hqj; exact hpd
  · intro n c d hb hP hpl hin hs p hp
    have hpd : d.raid_disk ≠ (p : Int) := by
      intro h
      apply hin
      constructor <;> omega
    have hne : c.2 ≠ p := by have := hb.2.1; omega
    rcases hP p hp with ⟨hsen, hno⟩ | ⟨i, x, hi, hq, hr, hx, hlast⟩
    · left
      refine ⟨?_, ?_⟩
      · show (c.1.set c.2 d)[p]? = _
        rw [List.getElem?_set_ne hne]
        exact hsen
      · intro i e hi hq
        rcases Nat.lt_succ_iff_lt_or_eq.mp hi with h | h
        · exact hno i e h hq
        · subst h; rw [hpl] at hq; cases hq; exact hpd
    · right
      refine ⟨i, x, by omega, hq, hr, ?_, ?_⟩
      · show (c.1.set c.2 d)[p]? = _
        rw [List.getElem?_set_ne hne]
        exact hx
      · intro j e hij hj hqj
        rcases Nat.lt_succ_iff_lt_or_eq.mp hj with h | h
        · exact hlast j e hij h hqj
        · subst h; rw [hpl] at hqj; cases hqj; exact hpd
  · intro n c d hb hP hpl hin hs p hp
    have hpd : d.raid_disk ≠ (p : Int) := by
      intro h
      apply hin
      constructor <;> omega
    rcases hP p hp with ⟨hsen, hno⟩ | ⟨i, x, hi, hq, hr, hx, hlast⟩
    · left
      refine ⟨hsen, ?_⟩
      intro i e hi hq
      rcases Nat.lt_succ_iff_lt_or_eq.mp hi with h | h
      · exact hno i e h hq
      · subst h; rw [hpl] at hq; cases hq; exact hpd
    · right
      refine ⟨i, x, by omega, hq, hr, hx, ?_⟩
      intro j e hij hj hqj
      rcases Nat.lt_succ_iff_lt_or_eq.mp hj with h | h
      · exact hlast j e hij h hqj
      · subst h; rw [hpl] at hqj; cases hqj; exact hpd

theorem coreRun_snapshot (K : md_p_h) {rd : Int} (q : Nat → Except Int mdu_disk_info_t)
    (h0 : 0 ≤ rd) (h1 : rd ≤ 384) (n : Nat) :
    ∃ c, coreRun K rd q n = some c ∧ Bounds rd c ∧ OverflowInv K rd q n c ∧
      MemberInv K rd q n c := by
  obtain ⟨c, hc, hb, hov⟩ := coreRun_overflow K q h0 h1 n
  obtain ⟨c2, hc2, -, hmem⟩ := coreRun_member K q h0 h1 n
  rw [hc] at hc2
  cases hc2
  exact ⟨c, hc, hb, hov, hmem⟩

/-- C1: for `0 ≤ raid_disks ≤ 384` and every query source the scan ends, and
each position `p < raid_disks` of the snapshot holds the record of the
highest slot number whose query succeeded with major and minor not both zero
and declared `raid_disk = p`; if there is no such slot, position `p` still
holds the sentinel (major = minor = 0, `raid_disk = p`, only the REMOVED
flag), which the output loop prints as MISSING. -/
theorem C1_member_position_last_write_wins (K : md_p_h) (raid_disks : Int)
    (GET_DISK_INFO : Nat → Except Int mdu_disk_info_t)
    (h0 : 0 ≤ raid_disks) (h1 : raid_disks ≤ maxSlots) :
    ∃ disks, buildTopology K raid_disks GET_DISK_INFO = some disks ∧
      disks.length = maxSlots ∧
      ∀ p : Nat, (p : Int) < raid_disks →
        (∀ i d, i < maxSlots → GET_DISK_INFO i = .ok d → ¬ notFound d →
          d.raid_disk = (p : Int) →
          (∀ j e, i < j → j < maxSlots → GET_DISK_INFO j = .ok e → ¬ notFound e →
            e.raid_disk ≠ (p : Int)) →
          disks[p]? = some d) ∧
        ((∀ i d, i < maxSlots → GET_DISK_INFO i = .ok d → ¬ notFound d →
            d.raid_disk ≠ (p : Int)) →
          disks[p]? = some
              { number := p, major := 0, minor := 0, raid_disk := p,
                state := Int.ofNat (1 <<< K.MD_DISK_REMOVED) } ∧
            (disks[p]?).map (arrayDiskLine K p) = some (Line.array_disk_missing p)) := by
  rw [maxSlots_eq] at h1 ⊢
  have h1i : raid_disks ≤ 384 := by exact_mod_cast h1
  obtain ⟨c, hc, hb, -, hmem⟩ := coreRun_snapshot K GET_DISK_INFO h0 h1i 384
  refine ⟨c.1, ?_, hb.1, ?_⟩
  · rw [buildTopology_eq, maxSlots_eq, hc]; rfl
  intro p hp
  have hpn : p < raid_disks.toNat := by omega
  constructor
  · intro i d hi hq hnz hrd hlast
    have hpl : placed GET_DISK_INFO i = some d := placed_eq_some.mpr ⟨hq, hnz⟩
    rcases hmem p hpn with ⟨-, hno⟩ | ⟨k, x, hk, hqk, hrk, hx, hlastk⟩
    · exact absurd hrd (hno i d hi hpl)
    · rcases Nat.lt_trichotomy i k with h | h | h
      · have hxk := placed_eq_some.mp hqk
        exact absurd hrk (hlast k x h hk hxk.1 hxk.2)
      · subst h
        rw [hpl] at hqk
        cases hqk
        exact hx
      · exact absurd hrd (hlastk i d h hi hpl)
  · intro hnone
    rcases hmem p hpn with ⟨hs, -⟩ | ⟨k, x, hk, hqk, hrk, -, -⟩
    · refine ⟨hs, ?_⟩
      rw [hs]
      simp [arrayDiskLine, sentinel_notFound]
    · have hxk := placed_eq_some.mp hqk
      exact absurd hrk (hnone k x hk hxk.1 hxk.2)

/-- Witness of C1 (Scenario A): an array of four members whose slots 0 to 3
answer with active, in-sync devices while every other query fails. -/
theorem C1_member_position_last_write_wins_witness :
    (0 : Int) ≤ 4 ∧ (4 : Int) ≤ maxSlots ∧
    (buildTopology linuxFlags 4 scenarioA).map (List.take 5) =
      some [⟨0, 8, 0, 0, 6⟩, ⟨1, 8, 16, 1, 6⟩, ⟨2, 8, 32, 2, 6⟩, ⟨3, 8, 48, 3, 6⟩,
        ⟨4, 0, 0, 4, 8⟩] ∧
    ∃ disks, buildTopology linuxFlags 4 scenarioA = some disks ∧
      disks.length = maxSlots ∧
      ∀ p : Nat, (p : Int) < 4 →
        (∀ i d, i < maxSlots → scenarioA i = .ok d → ¬ notFound d →
          d.raid_disk = (p : Int) →
          (∀ j e, i < j → j < maxSlots → scenarioA j = .ok e → ¬ notFound e →
            e.raid_disk ≠ (p : Int)) →
          disks[p]? = some d) ∧
        ((∀ i d, i < maxSlots → scenarioA i = .ok d → ¬ notFound d →
            d.raid_disk ≠ (p : Int)) →
          disks[p]? = some
              { number := p, major := 0, minor := 0, raid_disk := p,
                state := Int.ofNat (1 <<< linuxFlags.MD_DISK_REMOVED) } ∧
            (disks[p]?).map (arrayDiskLine linuxFlags p) = some (Line.array_disk_missing p)) :=
  ⟨by decide, by decide, by decide!,
    C1_member_position_last_write_wins linuxFlags 4 scenarioA (by decide) (by decide)⟩

theorem buildTopology_spec (K : md_p_h) {rd : Int} (q : Nat → Except Int mdu_disk_info_t)
    (h0 : 0 ≤ rd) (h1 : rd ≤ 384) :
    ∃ disks ns, buildTopology K rd q = some disks ∧ coreRun K rd q 384 = some (disks, ns) ∧
      Bounds rd (disks, ns) ∧ OverflowInv K rd q 384 (disks, ns) ∧
      MemberInv K rd q 384 (disks, ns) := by
  obtain ⟨c, hc, hb, hov, hmem⟩ := coreRun_snapshot K q h0 h1 384
  refine ⟨c.1, c.2, ?_, hc, hb, hov, hmem⟩
  rw [buildTopology_eq, maxSlots_eq, hc]
  rfl

theorem overflowRecords_stable (rd : Int) {q : Nat → Except Int mdu_disk_info_t} {n : Nat}
    (hrest : ∀ i, n ≤ i → placed q i = none) (m : Nat) :
    overflowRecords rd q (n + m) = overflowRecords rd q n := by
  induction m with
  | zero => rfl
  | succ m ih =>
    rw [← Nat.add_assoc, overflowRecords_succ, ih,
      overflowAt_of_none (hrest (n + m) (Nat.le_add_right n m))]
    simp

/-- C2 (claim as stated fails): with `raid_disks = 384` there is no position
behind the array members, so the overflow record of slot 0 (declared
`raid_disk = -1`) is the first overflow record seen and yet position
`384 + 1 - 1` does not exist and no position of the snapshot holds it. -/
theorem C2_overflow_record_not_in_snapshot :
    overflowRecords 384 (answers [(0, ⟨0, 8, 0, -1, 6⟩)]) maxSlots = [⟨0, 8, 0, -1, 6⟩] ∧
    ∃ disks, buildTopology linuxFlags 384 (answers [(0, ⟨0, 8, 0, -1, 6⟩)]) = some disks ∧
      disks[384 + 1 - 1]? = none ∧ (⟨0, 8, 0, -1, 6⟩ : mdu_disk_info_t) ∉ disks :=
  ⟨by decide!, initDisks linuxFlags, by decide!, by decide!, by decide!⟩

/-- C2 (amended): for `0 ≤ raid_disks ≤ 384` the scan ends and the positions
from `raid_disks` on hold the overflow records (filed records whose
`raid_disk` is negative or at least `raid_disks`) in the order of the
queries, without gaps, as far as positions below 384 exist: the `k`-th one
(counting from 0) is at position `raid_disks + k` whenever that is below 384,
and every position from `raid_disks + (number of overflow records)` on holds
the sentinel.  Scenario B: with `raid_disks = 2`, slot 0 answering
`raid_disk = 0`, slot 1 failing, slot 2 answering `raid_disk = 5` and no
later slot filed, position 0 holds the record of slot 0, position 1 is
MISSING and position 2 holds the record of slot 2. -/
theorem C2_overflow_positions_first_seen_order (K : md_p_h) (raid_disks : Int)
    (GET_DISK_INFO : Nat → Except Int mdu_disk_info_t)
    (h0 : 0 ≤ raid_disks) (h1 : raid_disks ≤ maxSlots) :
    ∃ disks, buildTopology K raid_disks GET_DISK_INFO = some disks ∧
      (∀ k, k < (overflowRecords raid_disks GET_DISK_INFO maxSlots).length →
        raid_disks.toNat + k < maxSlots →
        disks[raid_disks.toNat + k]? = (overflowRecords raid_disks GET_DISK_INFO maxSlots)[k]?) ∧
      (∀ p, raid_disks.toNat + (overflowRecords raid_disks GET_DISK_INFO maxSlots).length ≤ p →
        p < maxSlots → disks[p]? = some (sentinel K p)) ∧
      (raid_disks = 2 → ∀ d0 d2 e1,
        GET_DISK_INFO 0 = .ok d0 → ¬ notFound d0 → d0.raid_disk = 0 →
        GET_DISK_INFO 1 = .error e1 →
        GET_DISK_INFO 2 = .ok d2 → ¬ notFound d2 → d2.raid_disk = 5 →
        (∀ i, 3 ≤ i → placed GET_DISK_INFO i = none) →
        disks[0]? = some d0 ∧
        (disks[1]? = some (sentinel K 1) ∧
          (disks[1]?).map (arrayDiskLine K 1) = some (Line.array_disk_missing 1)) ∧
        disks[2]? = some d2) := by
  rw [maxSlots_eq] at h1 ⊢
  have h1i : raid_disks ≤ 384 := by exact_mod_cast h1
  obtain ⟨disks, ns, hbt, -, hb, hov, hmem⟩ := buildTopology_spec K GET_DISK_INFO h0 h1i
  refine ⟨disks, hbt, hov.2.1, hov.2.2, ?_⟩
  intro hrd d0 d2 e1 hq0 hz0 hr0 hq1 hq2 hz2 hr2 hrest
  subst hrd
  have hp0 : placed GET_DISK_INFO 0 = some d0 := placed_eq_some.mpr ⟨hq0, hz0⟩
  have hp1 : placed GET_DISK_INFO 1 = none := by simp [placed, hq1]
  have hp2 : placed GET_DISK_INFO 2 = some d2 := placed_eq_some.mpr ⟨hq2, hz2⟩
  have hin0 : inArray 2 d0 := by constructor <;> omega
  have hout2 : ¬ inArray 2 d2 := by
    intro h
    have := h.2
    omega
  have hov3 : overflowRecords 2 GET_DISK_INFO 384 = [d2] := by
    have h := overflowRecords_stable 2 hrest 381
    rw [show 3 + 381 = 384 from rfl] at h
    rw [h, overflowRecords_succ, overflowRecords_succ, overflowRecords_succ,
      overflowAt_of_member hp0 hin0, overflowAt_of_none hp1, overflowAt_of_outside hp2 hout2]
    rfl
  have hfiled : ∀ i d, i < 384 → placed GET_DISK_INFO i = some d → i = 0 ∨ i = 2 := by
    intro i d _ hpl
    by_contra hne
    have : i = 1 ∨ 3 ≤ i := by omega
    rcases this with h | h
    · subst h; rw [hp1] at hpl; cases hpl
    · rw [hrest i h] at hpl; cases hpl
  refine ⟨?_, ?_, ?_⟩
  · rcases hmem 0 (by decide) with ⟨-, hno⟩ | ⟨i, d, hi, hq, hr, hd, -⟩
    · exact absurd (by simpa using hr0) (hno 0 d0 (by decide) hp0)
    · rcases hfiled i d hi hq with h | h
      · subst h; rw [hp0] at hq; cases hq; exact hd
      · subst h; rw [hp2] at hq; cases hq; omega
  · have hs : disks[1]? = some (sentinel K 1) := by
      rcases hmem 1 (by decide) with ⟨hs, -⟩ | ⟨i, d, hi, hq, hr, -, -⟩
      · exact hs
      · rcases hfiled i d hi hq with h | h
        · subst h; rw [hp0] at hq; cases hq; omega
        · subst h; rw [hp2] at hq; cases hq; omega
    refine ⟨hs, ?_⟩
    rw [hs]
    simp [arrayDiskLine, sentinel_notFound]
  · have h := hov.2.1 0 (by rw [hov3]; simp) (by decide)
    rw [hov3] at h
    simpa using h

/-- Witness of C2 (Scenario B): two members, slot 0 answers for position 0,
slot 1 fails, slot 2 answers with `raid_disk = 5`. -/
theorem C2_overflow_positions_first_seen_order_witness :
    (0 : Int) ≤ 2 ∧ (2 : Int) ≤ maxSlots ∧
    (buildTopology linuxFlags 2 scenarioB).map (List.take 4) =
      some [⟨0, 8, 0, 0, 6⟩, ⟨1, 0, 0, 1, 8⟩, ⟨2, 8, 32, 5, 0⟩, ⟨3, 0, 0, 3, 8⟩] ∧
    ∃ disks, buildTopology linuxFlags 2 scenarioB = some disks ∧
      (∀ k, k < (overflowRecords 2 scenarioB maxSlots).length →
        (2 : Int).toNat + k < maxSlots →
        disks[(2 : Int).toNat + k]? = (overflowRecords 2 scenarioB maxSlots)[k]?) ∧
      (∀ p, (2 : Int).toNat + (overflowRecords 2 scenarioB maxSlots).length ≤ p →
        p < maxSlots → disks[p]? = some (sentinel linuxFlags p)) ∧
      ((2 : Int) = 2 → ∀ d0 d2 e1,
        scenarioB 0 = .ok d0 → ¬ notFound d0 → d0.raid_disk = 0 →
        scenarioB 1 = .error e1 →
        scenarioB 2 = .ok d2 → ¬ notFound d2 → d2.raid_disk = 5 →
        (∀ i, 3 ≤ i → placed scenarioB i = none) →
        disks[0]? = some d0 ∧
        (disks[1]? = some (sentinel linuxFlags 1) ∧
          (disks[1]?).map (arrayDiskLine linuxFlags 1) = some (Line.array_disk_missing 1)) ∧
        disks[2]? = some d2) :=
  ⟨by decide, by decide, by decide!,
    C2_overflow_positions_first_seen_order linuxFlags 2 scenarioB (by decide) (by decide)⟩

theorem coreRun_congr (K : md_p_h) (rd : Int) (q q2 : Nat → Except Int mdu_disk_info_t)
    (n : Nat) (h : ∀ i, i < n → placed q i = placed q2 i) :
    coreRun K rd q n = coreRun K rd q2 n := by
  induction n with
  | zero => rfl
  | succ n ih =>
    simp only [coreRun]
    rw [ih (fun i hi => h i (Nat.lt_succ_of_lt hi)), h n (Nat.lt_succ_self n)]

theorem place_cases {rd : Int} {c c2 : List mdu_disk_info_t × Nat} {o : Option mdu_disk_info_t}
    (h : place rd c o = some c2) :
    c2 = c ∨ ∃ d i, o = some d ∧ i < c.1.length ∧ c2.1 = c.1.set i d := by
  cases o with
  | none =>
    left
    simp only [place] at h
    cases h
    rfl
  | some d =>
    simp only [place, store] at h
    split_ifs at h with h1 h2 h3 h4
    · right
      simp only [Option.map_some', Option.some.injEq] at h
      exact ⟨d, _, rfl, h2, by rw [← h]⟩
    · simp at h
    · right
      simp only [Option.map_some', Option.some.injEq] at h
      exact ⟨d, _, rfl, h4, by rw [← h]⟩
    · simp at h
    · left
      cases h
      rfl

theorem coreRun_provenance (K : md_p_h) (rd : Int) (q : Nat → Except Int mdu_disk_info_t)
    (n : Nat) (c : List mdu_disk_info_t × Nat) (h : coreRun K rd q n = some c) :
    ∀ p d, c.1[p]? = some d → d = sentinel K p ∨ ∃ j, j < n ∧ placed q j = some d := by
  induction n generalizing c with
  | zero =>
    intro p d hd
    left
    simp only [coreRun, Option.some.injEq] at h
    subst h
    have hp : p < 384 := by
      have := (List.getElem?_eq_some.mp hd).1
      rwa [initDisks_length] at this
    rw [initDisks_getElem? K hp] at hd
    cases hd
    rfl
  | succ n ih =>
    intro p d hd
    simp only [coreRun] at h
    cases hrun : coreRun K rd q n with
    | none => simp [hrun] at h
    | some c0 =>
      rw [hrun, Option.some_bind] at h
      have lift : (d = sentinel K p ∨ ∃ j, j < n ∧ placed q j = some d) →
          (d = sentinel K p ∨ ∃ j, j < n + 1 ∧ placed q j = some d) := by
        rintro (h | ⟨j, hj, hq⟩)
        · exact Or.inl h
        · exact Or.inr ⟨j, Nat.lt_succ_of_lt hj, hq⟩
      rcases place_cases h with hc | ⟨x, i, ho, hi, hset⟩
      · rw [hc] at hd
        exact lift (ih c0 hrun p d hd)
      · rw [hset] at hd
        by_cases hip : i = p
        · subst hip
          rw [List.getElem?_set_self hi] at hd
          cases hd
          exact Or.inr ⟨n, Nat.lt_succ_self n, ho⟩
        · rw [List.getElem?_set_ne hip] at hd
          exact lift (ih c0 hrun p d hd)

/-- C4: a successful answer whose major and minor are both zero is never
filed and counts as a failed query: whatever its `raid_disk` and state,
putting it at slot `i` of any query source gives the same snapshot as a
failed query at slot `i`, for every `raid_disks`; and at no moment of the
scan does a position hold anything but its sentinel or the answer of a
successful query whose major and minor are not both zero. -/
theorem C4_zero_identity_is_a_miss (K : md_p_h) (raid_disks : Int)
    (GET_DISK_INFO : Nat → Except Int mdu_disk_info_t) (i : Nat) (z : mdu_disk_info_t)
    (err : Int) (hz : z.major = 0 ∧ z.minor = 0) :
    buildTopology K raid_disks (withAnswer GET_DISK_INFO i (.ok z)) =
      buildTopology K raid_disks (withAnswer GET_DISK_INFO i (.error err)) ∧
    (∀ n st, scanPrefix K raid_disks (withAnswer GET_DISK_INFO i (.ok z)) [] n = some st →
      ∀ p d, st.disks[p]? = some d →
        d = sentinel K p ∨ ∃ j, j < n ∧ j ≠ i ∧ GET_DISK_INFO j = .ok d ∧ ¬ notFound d) ∧
    (∀ disks, buildTopology K raid_disks GET_DISK_INFO = some disks →
      ∀ p d, disks[p]? = some d →
        d = sentinel K p ∨
          ∃ j, j < maxSlots ∧ GET_DISK_INFO j = .ok d ∧ ¬ (d.major = 0 ∧ d.minor = 0)) := by
  refine ⟨?_, ?_, ?_⟩
  · rw [buildTopology_eq, buildTopology_eq, coreRun_congr K raid_disks
      (withAnswer GET_DISK_INFO i (.ok z)) (withAnswer GET_DISK_INFO i (.error err))]
    intro j _
    unfold placed withAnswer
    by_cases hj : j = i
    · have hnf : notFound z := hz
      simp [hj, hnf]
    · simp [hj]
  · intro n st hst p d hd
    have hcore := scanPrefix_core K raid_disks (withAnswer GET_DISK_INFO i (.ok z)) [] n
    rw [hst] at hcore
    rcases coreRun_provenance K raid_disks _ n (core st) hcore.symm p d hd with h | ⟨j, hj, hq⟩
    · exact Or.inl h
    · right
      obtain ⟨hok, hnz⟩ := placed_eq_some.mp hq
      unfold withAnswer at hok
      by_cases hji : j = i
      · rw [if_pos hji] at hok
        cases hok
        exact absurd hz hnz
      · rw [if_neg hji] at hok
        exact ⟨j, hj, hji, hok, hnz⟩
  · intro disks hbt p d hd
    rw [buildTopology_eq] at hbt
    cases hrun : coreRun K raid_disks GET_DISK_INFO maxSlots with
    | none => simp [hrun] at hbt
    | some c =>
      rw [hrun] at hbt
      simp only [Option.map_some', Option.some.injEq] at hbt
      subst hbt
      rcases coreRun_provenance K raid_disks _ maxSlots c hrun p d hd with h | ⟨j, hj, hq⟩
      · exact Or.inl h
      · obtain ⟨hok, hnz⟩ := placed_eq_some.mp hq
        exact Or.inr ⟨j, hj, hok, hnz⟩

/-- Witness of C4: in Scenario B the failing slot 1 answers instead with a
record whose major and minor are zero and which declares position 0. -/
theorem C4_zero_identity_is_a_miss_witness :
    ((0 : Int) = 0 ∧ (0 : Int) = 0) ∧
    buildTopology linuxFlags 2 (withAnswer scenarioB 1 (.ok ⟨1, 0, 0, 0, 6⟩)) =
      buildTopology linuxFlags 2 (withAnswer scenarioB 1 (.error 5)) ∧
    (∀ n st, scanPrefix linuxFlags 2 (withAnswer scenarioB 1 (.ok ⟨1, 0, 0, 0, 6⟩)) [] n
        = some st →
      ∀ p d, st.disks[p]? = some d →
        d = sentinel linuxFlags p ∨
          ∃ j, j < n ∧ j ≠ 1 ∧ scenarioB j = .ok d ∧ ¬ notFound d) ∧
    (∀ disks, buildTopology linuxFlags 2 scenarioB = some disks →
      ∀ p d, disks[p]? = some d →
        d = sentinel linuxFlags p ∨
          ∃ j, j < maxSlots ∧ scenarioB j = .ok d ∧ ¬ (d.major = 0 ∧ d.minor = 0)) :=
  ⟨⟨rfl, rfl⟩, C4_zero_identity_is_a_miss linuxFlags 2 scenarioB 1 ⟨1, 0, 0, 0, 6⟩ 5 ⟨rfl, rfl⟩⟩

theorem goodEvent_mono {rd : Int} {q : Nat → Except Int mdu_disk_info_t} {ns ns2 : Nat}
    (h : ns ≤ ns2) {e : Event} (he : goodEvent rd q ns e) : goodEvent rd q ns2 e := by
  cases e with
  | store_member i d => exact he
  | store_spare i d => exact ⟨he.1, Nat.lt_of_lt_of_le he.2 h⟩
  | stderr d => exact he
  | _ => trivial

theorem mem_snoc_good {rd : Int} {q : Nat → Except Int mdu_disk_info_t} {ns : Nat}
    {tr tr0 : List Event} (x : Event)
    (htr : ∀ e, e ∈ tr → e ∈ tr0 ∨ goodEvent rd q ns e) (hx : goodEvent rd q ns x) :
    ∀ e, e ∈ tr ++ [x] → e ∈ tr0 ∨ goodEvent rd q ns e := by
  intro e he
  rcases List.mem_append.mp he with h | h
  · exact htr e h
  · rw [List.mem_singleton] at h
    subst h
    exact Or.inr hx

theorem scanStep_stores {rd : Int} (q : Nat → Except Int mdu_disk_info_t) (st : ScanState)
    (n : Nat) (tr0 : List Event) (h1 : rd ≤ 384) (hb : Bounds rd (core st))
    (hg : ∀ e, e ∈ st.trace → e ∈ tr0 ∨ goodEvent rd q st.next_spare_idx e) :
    ∃ st2, scanStep rd q st n = some st2 ∧ Bounds rd (core st2) ∧
      ∀ e, e ∈ st2.trace → e ∈ tr0 ∨ goodEvent rd q st2.next_spare_idx e := by
  obtain ⟨hlen, hlo, hhi⟩ := hb
  simp only [core] at hlen hlo hhi
  have hask := mem_snoc_good (Event.ioctl_GET_DISK_INFO n) hg trivial
  unfold scanStep
  cases hq : q n with
  | error err =>
    by_cases hi : n < toUnsigned rd
    · simp only [hi, if_true]
      exact ⟨_, rfl, ⟨hlen, hlo, hhi⟩, mem_snoc_good _ hask ⟨n, err, hq, Or.inl rfl⟩⟩
    · simp only [hi, if_false]
      exact ⟨_, rfl, ⟨hlen, hlo, hhi⟩, mem_snoc_good _ hask ⟨n, err, hq, Or.inr rfl⟩⟩
  | ok d =>
    by_cases hz : notFound d
    · simp only [hz, if_true]
      exact ⟨_, rfl, ⟨hlen, hlo, hhi⟩, hask⟩
    · by_cases hin : inArray rd d
      · have hlt : d.raid_disk.toNat < st.disks.length := by
          have := hin.1; have := hin.2; omega
        have hidx : d.raid_disk.toNat < rd.toNat := by
          have := hin.1; have := hin.2; omega
        simp only [hz, hin, if_true, if_false, store, hlt, Option.map_some']
        refine ⟨_, rfl, ⟨?_, hlo, hhi⟩, mem_snoc_good _ hask hidx⟩
        simpa [core] using hlen
      · by_cases hs : st.next_spare_idx < maxSlots
        · have hs384 : st.next_spare_idx < 384 := hs
          have hlt : st.next_spare_idx < st.disks.length := by omega
          have hmod : (st.next_spare_idx + 1) % 4294967296 = st.next_spare_idx + 1 := by omega
          simp only [hz, hin, hs, if_true, if_false, store, hlt, Option.map_some', hmod]
          refine ⟨_, rfl, ⟨?_, ?_, ?_⟩, ?_⟩
          · simpa [core] using hlen
          · show rd.toNat ≤ st.next_spare_idx + 1
            omega
          · show st.next_spare_idx + 1 ≤ 384
            omega
          · apply mem_snoc_good
            · intro e he
              rcases hask e he with h2 | h2
              · exact Or.inl h2
              · exact Or.inr (goodEvent_mono (Nat.le_succ _) h2)
            · exact ⟨hlo, Nat.lt_succ_self _⟩
        · simp only [hz, hin, hs, if_false]
          exact ⟨_, rfl, ⟨hlen, hlo, hhi⟩, hask⟩

theorem scanPrefix_stores (K : md_p_h) {rd : Int} (q : Nat → Except Int mdu_disk_info_t)
    (tr0 : List Event) (h0 : 0 ≤ rd) (h1 : rd ≤ 384) (n : Nat) :
    ∃ st, scanPrefix K rd q tr0 n = some st ∧ Bounds rd (core st) ∧
      ∀ e, e ∈ st.trace → e ∈ tr0 ∨ goodEvent rd q st.next_spare_idx e := by
  induction n with
  | zero =>
    refine ⟨scanInit K rd tr0, rfl, ⟨initDisks_length K, ?_, ?_⟩, fun e he => Or.inl he⟩
    · show rd.toNat ≤ toUnsigned rd
      rw [toUnsigned_of_le h0 h1]
    · show toUnsigned rd ≤ 384
      rw [toUnsigned_of_le h0 h1]
      omega
  | succ n ih =>
    obtain ⟨st, hst, hb, hg⟩ := ih
    obtain ⟨st2, hstep, hb2, hg2⟩ := scanStep_stores q st n tr0 h1 hb hg
    exact ⟨st2, by rw [scanPrefix_succ, hst, Option.some_bind, hstep], hb2, hg2⟩

theorem coreRun_dropExcess (K : md_p_h) {rd : Int} (q : Nat → Except Int mdu_disk_info_t)
    (err : Int) (h0 : 0 ≤ rd) (h1 : rd ≤ 384) (n : Nat) :
    coreRun K rd (dropExcess rd q err) n = coreRun K rd q n := by
  induction n with
  | zero => rfl
  | succ n ih =>
    simp only [coreRun]
    rw [ih]
    obtain ⟨c, hc, hb, hov⟩ := coreRun_overflow K q h0 h1 n
    rw [hc, Option.some_bind, Option.some_bind]
    cases hat : overflowAt rd q n with
    | none =>
      have : dropExcess rd q err n = q n := by simp [dropExcess, hat]
      simp [placed, this]
    | some d =>
      by_cases hfull : maxSlots - rd.toNat ≤ (overflowRecords rd q n).length
      · have hmiss : placed (dropExcess rd q err) n = none := by
          simp [placed, dropExcess, hat, hfull]
        obtain ⟨hpl, hin⟩ := overflowAt_eq_some hat
        have hns : ¬ c.2 < 384 := by
          have := hov.1
          rw [maxSlots_eq] at hfull
          omega
        rw [hmiss, hpl, place_full hin hns]
        rfl
      · have : dropExcess rd q err n = q n := by simp [dropExcess, hat, hfull]
        simp [placed, this]

/-- C3: for `0 ≤ raid_disks ≤ 384`, when the queries yield more than
`384 - raid_disks` overflow records, the first `384 - raid_disks` of them fill
the positions `raid_disks .. 383` in the order of the queries and every later
one is dropped: the scan still ends, and the snapshot is the one obtained when
the queries of the records in excess fail instead, so a record in excess
overwrites neither a member position nor a filed overflow record; the cursor
`next_spare_idx` never exceeds 384, and the only diagnostics of the scan are
those of failed queries, none for a dropped record. -/
theorem C3_excess_overflow_records_dropped (K : md_p_h) (raid_disks : Int)
    (GET_DISK_INFO : Nat → Except Int mdu_disk_info_t)
    (h0 : 0 ≤ raid_disks) (h1 : raid_disks ≤ maxSlots)
    (hmore : maxSlots - raid_disks.toNat <
      (overflowRecords raid_disks GET_DISK_INFO maxSlots).length) :
    ∃ disks, buildTopology K raid_disks GET_DISK_INFO = some disks ∧
      (∀ k, k < maxSlots - raid_disks.toNat →
        disks[raid_disks.toNat + k]? =
          (overflowRecords raid_disks GET_DISK_INFO maxSlots)[k]?) ∧
      (∀ err, buildTopology K raid_disks (dropExcess raid_disks GET_DISK_INFO err) =
        some disks) ∧
      (∀ n, n ≤ maxSlots → ∃ st, scanPrefix K raid_disks GET_DISK_INFO [] n = some st ∧
        st.next_spare_idx ≤ maxSlots ∧
        ∀ d, Event.stderr d ∈ st.trace → ∃ idx err, GET_DISK_INFO idx = .error err ∧
          (d = Diag.cannot_get_raid_device idx err ∨
            d = Diag.cannot_get_spare_device idx err)) := by
  rw [maxSlots_eq] at h1 hmore ⊢
  have h1i : raid_disks ≤ 384 := by exact_mod_cast h1
  obtain ⟨disks, ns, hbt, -, hb, hov, -⟩ := buildTopology_spec K GET_DISK_INFO h0 h1i
  refine ⟨disks, hbt, ?_, ?_, ?_⟩
  · intro k hk
    exact hov.2.1 k (by omega) (by omega)
  · intro err
    rw [buildTopology_eq, coreRun_dropExcess K GET_DISK_INFO err h0 h1i, ← buildTopology_eq]
    exact hbt
  · intro n _
    obtain ⟨st, hst, hbn, hg⟩ := scanPrefix_stores K GET_DISK_INFO [] h0 h1i n
    refine ⟨st, hst, hbn.2.2, ?_⟩
    intro d hd
    rcases hg _ hd with h | h
    · cases h
    · exact h

/-- Witness of C3: 383 members leave one position for two overflow records. -/
theorem C3_excess_overflow_records_dropped_witness :
    (0 : Int) ≤ 383 ∧ (383 : Int) ≤ maxSlots ∧
    maxSlots - (383 : Int).toNat < (overflowRecords 383 scenarioFull maxSlots).length ∧
    (buildTopology linuxFlags 383 scenarioFull).map (List.drop 382) =
      some [⟨382, 0, 0, 382, 8⟩, ⟨0, 8, 0, -1, 0⟩] ∧
    ∃ disks, buildTopology linuxFlags 383 scenarioFull = some disks ∧
      (∀ k, k < maxSlots - (383 : Int).toNat →
        disks[(383 : Int).toNat + k]? = (overflowRecords 383 scenarioFull maxSlots)[k]?) ∧
      (∀ err, buildTopology linuxFlags 383 (dropExcess 383 scenarioFull err) = some disks) ∧
      (∀ n, n ≤ maxSlots → ∃ st, scanPrefix linuxFlags 383 scenarioFull [] n = some st ∧
        st.next_spare_idx ≤ maxSlots ∧
        ∀ d, Event.stderr d ∈ st.trace → ∃ idx err, scenarioFull idx = .error err ∧
          (d = Diag.cannot_get_raid_device idx err ∨
            d = Diag.cannot_get_spare_device idx err)) :=
  ⟨by decide, by decide, by decide!, by decide!,
    C3_excess_overflow_records_dropped linuxFlags 383 scenarioFull (by decide) (by decide)
      (by decide!)⟩

/-- C9: for `0 ≤ raid_disks ≤ 384` and every query source (whatever
`raid_disk` the records declare) the scan reaches the end of every pass
without an access outside `disks[0 .. 383]`, and after every pass the cursor
satisfies `raid_disks ≤ next_spare_idx ≤ 384`, every member assignment made
so far used an index below `raid_disks`, and every spare assignment made so
far used an index that is at least `raid_disks`, below the cursor and below
384; so the two kinds of assignment never touch the same position. -/
theorem C9_scan_stays_in_bounds (K : md_p_h) (raid_disks : Int)
    (GET_DISK_INFO : Nat → Except Int mdu_disk_info_t)
    (h0 : 0 ≤ raid_disks) (h1 : raid_disks ≤ maxSlots) (n : Nat) (_hn : n ≤ maxSlots) :
    ∃ st, scanPrefix K raid_disks GET_DISK_INFO [] n = some st ∧
      st.disks.length = maxSlots ∧
      raid_disks.toNat ≤ st.next_spare_idx ∧ st.next_spare_idx ≤ maxSlots ∧
      (∀ i d, Event.store_member i d ∈ st.trace → i < raid_disks.toNat ∧ i < maxSlots) ∧
      (∀ i d, Event.store_spare i d ∈ st.trace →
        raid_disks.toNat ≤ i ∧ i < st.next_spare_idx ∧ i < maxSlots) ∧
      (∀ i d j e, Event.store_member i d ∈ st.trace → Event.store_spare j e ∈ st.trace →
        i ≠ j) := by
  rw [maxSlots_eq] at h1 ⊢
  have h1i : raid_disks ≤ 384 := by exact_mod_cast h1
  obtain ⟨st, hst, ⟨hlen, hlo, hhi⟩, hg⟩ := scanPrefix_stores K GET_DISK_INFO [] h0 h1i n
  simp only [core] at hlen hlo hhi
  have hmem : ∀ i d, Event.store_member i d ∈ st.trace → i < raid_disks.toNat := by
    intro i d h
    rcases hg _ h with h2 | h2
    · cases h2
    · exact h2
  have hspare : ∀ i d, Event.store_spare i d ∈ st.trace →
      raid_disks.toNat ≤ i ∧ i < st.next_spare_idx := by
    intro i d h
    rcases hg _ h with h2 | h2
    · cases h2
    · exact h2
  refine ⟨st, hst, hlen, hlo, hhi, ?_, ?_, ?_⟩
  · intro i d h
    have := hmem i d h
    omega
  · intro i d h
    have := hspare i d h
    omega
  · intro i d j e hi hj
    have := hmem i d hi
    have := hspare j e hj
    omega

/-- Witness of C9: the whole scan of Scenario B. -/
theorem C9_scan_stays_in_bounds_witness :
    (0 : Int) ≤ 2 ∧ (2 : Int) ≤ maxSlots ∧ maxSlots ≤ maxSlots ∧
    ∃ st, scanPrefix linuxFlags 2 scenarioB [] maxSlots = some st ∧
      st.disks.length = maxSlots ∧
      (2 : Int).toNat ≤ st.next_spare_idx ∧ st.next_spare_idx ≤ maxSlots ∧
      (∀ i d, Event.store_member i d ∈ st.trace → i < (2 : Int).toNat ∧ i < maxSlots) ∧
      (∀ i d, Event.store_spare i d ∈ st.trace →
        (2 : Int).toNat ≤ i ∧ i < st.next_spare_idx ∧ i < maxSlots) ∧
      (∀ i d j e, Event.store_member i d ∈ st.trace → Event.store_spare j e ∈ st.trace →
        i ≠ j) :=
  ⟨by decide, by decide, le_refl _,
    C9_scan_stays_in_bounds linuxFlags 2 scenarioB (by decide) (by decide) maxSlots (le_refl _)⟩

theorem regions_of_snapshot (K : md_p_h) {rd : Int} (q : Nat → Except Int mdu_disk_info_t)
    {disks : List mdu_disk_info_t} {ns : Nat} (hb : Bounds rd (disks, ns))
    (hov : OverflowInv K rd q 384 (disks, ns)) (hmem : MemberInv K rd q 384 (disks, ns)) :
    Regions K rd disks ns := by
  intro p hp
  obtain ⟨hlen, hlo, hhi⟩ := hb
  obtain ⟨hns, hfiled, hsent⟩ := hov
  simp only at hlen hlo hhi hns hfiled hsent
  by_cases h1 : p < rd.toNat
  · rcases hmem p h1 with ⟨hs, -⟩ | ⟨i, d, -, hq, hr, hd, -⟩
    · exact ⟨_, hs, Or.inl ⟨h1, Or.inl rfl⟩⟩
    · exact ⟨d, hd, Or.inl ⟨h1, Or.inr ⟨(placed_eq_some.mp hq).2, hr⟩⟩⟩
  · by_cases h2 : p < ns
    · have hk : p - rd.toNat < (overflowRecords rd q 384).length := by omega
      have hget := hfiled (p - rd.toNat) hk (by omega)
      rw [show rd.toNat + (p - rd.toNat) = p by omega] at hget
      obtain ⟨x, hx⟩ : ∃ x, (overflowRecords rd q 384)[p - rd.toNat]? = some x :=
        ⟨_, List.getElem?_eq_getElem hk⟩
      have hxmem : x ∈ overflowRecords rd q 384 := List.getElem?_mem hx
      obtain ⟨i, -, hi⟩ := List.mem_filterMap.mp hxmem
      obtain ⟨hpl, hout⟩ := overflowAt_eq_some hi
      exact ⟨x, by rw [hget, hx], Or.inr (Or.inl ⟨by omega, h2, (placed_eq_some.mp hpl).2, hout⟩)⟩
    · exact ⟨_, hsent p (by omega) hp, Or.inr (Or.inr ⟨by omega, by omega, rfl⟩)⟩

theorem placed_replay {disks : List mdu_disk_info_t} {err : Int} {n : Nat}
    {x : mdu_disk_info_t} (hx : disks[n]? = some x) :
    placed (replay disks err) n = if notFound x then none else some x := by
  simp [placed, replay, hx]

theorem coreRun_replay (K : md_p_h) {rd : Int} {disks : List mdu_disk_info_t} {ns : Nat}
    (err : Int) (h0 : 0 ≤ rd) (h1 : rd ≤ 384) (hb : Bounds rd (disks, ns))
    (hreg : Regions K rd disks ns) (n : Nat) :
    ∃ c, coreRun K rd (replay disks err) n = some c ∧ Bounds rd c ∧
      (n ≤ 384 → c.2 = max rd.toNat (min n ns) ∧
        ∀ p, p < 384 → c.1[p]? = if p < n then disks[p]? else some (sentinel K p)) := by
  obtain ⟨-, hlo, hhi⟩ := hb
  simp only at hlo hhi
  apply coreRun_induction K (replay disks err) h0 h1
    (fun n c => n ≤ 384 → c.2 = max rd.toNat (min n ns) ∧
        ∀ p, p < 384 → c.1[p]? = if p < n then disks[p]? else some (sentinel K p))
  · intro _
    refine ⟨by omega, ?_⟩
    intro p hp
    simpa using initDisks_getElem? K hp
  · intro n c _ hP hpl hn
    obtain ⟨hns, hget⟩ := hP (by omega)
    obtain ⟨x, hx, hcase⟩ := hreg n (by omega)
    rw [placed_replay hx] at hpl
    have hnf : notFound x := by
      by_contra h
      simp [h] at hpl
    have hxs : x = sentinel K n ∧ (n < rd.toNat ∨ ns ≤ n) := by
      rcases hcase with ⟨h, hs | ⟨hnz, -⟩⟩ | ⟨-, -, hnz, -⟩ | ⟨-, h, hs⟩
      · exact ⟨hs, Or.inl h⟩
      · exact absurd hnf hnz
      · exact absurd hnf hnz
      · exact ⟨hs, Or.inr h⟩
    refine ⟨by omega, ?_⟩
    intro p hp
    rw [hget p hp]
    by_cases hpn : p = n
    · subst hpn
      simp [hx, hxs.1]
    · have : p < n ↔ p < n + 1 := by omega
      simp only [this]
  · intro n c d hbc hP hpl hin hn
    obtain ⟨hns, hget⟩ := hP (by omega)
    obtain ⟨x, hx, hcase⟩ := hreg n (by omega)
    rw [placed_replay hx] at hpl
    have hnz : ¬ notFound x := by
      intro h
      simp [h] at hpl
    simp only [hnz, if_false, Option.some.injEq] at hpl
    subst hpl
    have hpos : x.raid_disk = (n : Int) ∧ n < rd.toNat := by
      rcases hcase with ⟨h, hs | ⟨-, hr⟩⟩ | ⟨-, -, -, hout⟩ | ⟨-, -, hs⟩
      · exact absurd (hs ▸ sentinel_notFound K n) hnz
      · exact ⟨hr, h⟩
      · exact absurd hin hout
      · exact absurd (hs ▸ sentinel_notFound K n) hnz
    have hidx : x.raid_disk.toNat = n := by omega
    refine ⟨?_, ?_⟩
    · show c.2 = _
      omega
    · intro p hp
      show (c.1.set x.raid_disk.toNat x)[p]? = _
      rw [hidx]
      by_cases hpn : p = n
      · subst hpn
        rw [List.getElem?_set_self (by have := hbc.1; omega)]
        simp [hx]
      · rw [List.getElem?_set_ne (Ne.symm hpn), hget p hp]
        have : p < n ↔ p < n + 1 := by omega
        simp only [this]
  · intro n c d hbc hP hpl hout hs hn
    obtain ⟨hns, hget⟩ := hP (by omega)
    obtain ⟨x, hx, hcase⟩ := hreg n (by omega)
    rw [placed_replay hx] at hpl
    have hnz : ¬ notFound x := by
      intro h
      simp [h] at hpl
    simp only [hnz, if_false, Option.some.injEq] at hpl
    subst hpl
    have hpos : rd.toNat ≤ n ∧ n < ns := by
      rcases hcase with ⟨h, hs | ⟨-, hr⟩⟩ | ⟨h, h2, -, -⟩ | ⟨-, -, hs⟩
      · exact absurd (hs ▸ sentinel_notFound K n) hnz
      · exact absurd ⟨by omega, by omega⟩ hout
      · exact ⟨h, h2⟩
      · exact absurd (hs ▸ sentinel_notFound K n) hnz
    have hc2 : c.2 = n := by omega
    refine ⟨?_, ?_⟩
    · show c.2 + 1 = _
      omega
    · intro p hp
      show (c.1.set c.2 x)[p]? = _
      rw [hc2]
      by_cases hpn : p = n
      · subst hpn
        rw [List.getElem?_set_self (by have := hbc.1; omega)]
        simp [hx]
      · rw [List.getElem?_set_ne (Ne.symm hpn), hget p hp]
        have : p < n ↔ p < n + 1 := by omega
        simp only [this]
  · intro n c d hbc hP hpl hout hs hn
    obtain ⟨hns, hget⟩ := hP (by omega)
    obtain ⟨x, hx, hcase⟩ := hreg n (by omega)
    rw [placed_replay hx] at hpl
    have hnz : ¬ notFound x := by
      intro h
      simp [h] at hpl
    simp only [hnz, if_false, Option.some.injEq] at hpl
    subst hpl
    exfalso
    rcases hcase with ⟨h, hs | ⟨-, hr⟩⟩ | ⟨h, h2, -, -⟩ | ⟨-, -, hs⟩
    · exact absurd (hs ▸ sentinel_notFound K n) hnz
    · exact absurd ⟨by omega, by omega⟩ hout
    · omega
    · exact absurd (hs ▸ sentinel_notFound K n) hnz

/-- C10: for `0 ≤ raid_disks ≤ 384` and every query source the scan ends with
a snapshot `S`, and the scan with the same `raid_disks` of the query source
that answers slot `i` with `S[i]` ends with exactly `S` again. -/
theorem C10_snapshot_is_a_fixpoint (K : md_p_h) (raid_disks : Int)
    (GET_DISK_INFO : Nat → Except Int mdu_disk_info_t)
    (h0 : 0 ≤ raid_disks) (h1 : raid_disks ≤ maxSlots) :
    ∃ S, buildTopology K raid_disks GET_DISK_INFO = some S ∧
      ∀ err, buildTopology K raid_disks (replay S err) = some S := by
  rw [maxSlots_eq] at h1
  have h1i : raid_disks ≤ 384 := by exact_mod_cast h1
  obtain ⟨S, ns, hbt, -, hb, hov, hmem⟩ := buildTopology_spec K GET_DISK_INFO h0 h1i
  refine ⟨S, hbt, ?_⟩
  intro err
  have hreg := regions_of_snapshot K GET_DISK_INFO hb hov hmem
  obtain ⟨c, hc, hbc, hP⟩ := coreRun_replay K err h0 h1i hb hreg 384
  obtain ⟨-, hget⟩ := hP (le_refl _)
  rw [buildTopology_eq, maxSlots_eq, hc]
  simp only [Option.map_some', Option.some.injEq]
  apply List.ext_getElem?
  intro p
  by_cases hp : p < 384
  · rw [hget p hp, if_pos hp]
  · rw [List.getElem?_eq_none (by have := hbc.1; omega),
      List.getElem?_eq_none (by have := hb.1; simp only at this; omega)]

/-- Witness of C10: replaying the snapshot of Scenario B. -/
theorem C10_snapshot_is_a_fixpoint_witness :
    (0 : Int) ≤ 2 ∧ (2 : Int) ≤ maxSlots ∧
    ∃ S, buildTopology linuxFlags 2 scenarioB = some S ∧
      ∀ err, buildTopology linuxFlags 2 (replay S err) = some S :=
  ⟨by decide, by decide,
    C10_snapshot_is_a_fixpoint linuxFlags 2 scenarioB (by decide) (by decide)⟩

/-- C5: when the node is opened and the whole-array query `GET_ARRAY_INFO`
fails, the process closes the descriptor and exits with code 1 after a single
diagnostic: it makes no `GET_DISK_INFO` query, assigns nothing into `disks`
and prints nothing on `stdout`.  The diagnostic is `device ... does not
appear to be active.` exactly when `errno` is `ENODEV`, and `cannot get array
detail for ...` with the error for every other `errno`. -/
theorem C5_array_query_failure_is_fatal (K : md_p_h) (env : Env) (prog path : String)
    (rest : List String) (fd err : Int)
    (hargv : env.argv = prog :: path :: rest) (hopen : env.open_result = .ok fd)
    (hfail : env.GET_ARRAY_INFO = .error err) :
    ∃ out, main K env = some out ∧ out.status = 1 ∧
      out.trace = [Event.sys_open path, Event.ioctl_GET_ARRAY_INFO,
        Event.stderr (if err = ENODEV then Diag.not_active path
          else Diag.cannot_get_array_detail path err),
        Event.sys_close, Event.exit 1] ∧
      (∀ idx, Event.ioctl_GET_DISK_INFO idx ∉ out.trace) ∧
      (∀ l, Event.stdout l ∉ out.trace) ∧
      (∀ d, Event.stderr d ∈ out.trace →
        (err = ENODEV ∧ d = Diag.not_active path) ∨
        (err ≠ ENODEV ∧ d = Diag.cannot_get_array_detail path err)) ∧
      (Event.stderr (Diag.not_active path) ∈ out.trace ↔ err = ENODEV) := by
  have hmain : main K env = some
      ⟨[Event.sys_open path, Event.ioctl_GET_ARRAY_INFO,
        Event.stderr (if err = ENODEV then Diag.not_active path
          else Diag.cannot_get_array_detail path err),
        Event.sys_close, Event.exit 1], 1⟩ := by
    simp only [main, hargv, hopen, hfail]
  refine ⟨_, hmain, rfl, rfl, ?_, ?_, ?_, ?_⟩
  · intro idx h
    simp at h
  · intro l h
    simp at h
  · intro d h
    by_cases he : err = ENODEV
    · simp [he] at h
      exact Or.inl ⟨he, h⟩
    · simp [he] at h
      exact Or.inr ⟨he, h⟩
  · by_cases he : err = ENODEV
    · simp [he]
    · simp [he]

/-- Witness of C5 (Scenario D): the node opens and the array query fails with
`ENODEV`. -/
theorem C5_array_query_failure_is_fatal_witness :
    scenarioD.argv = "md_stat" :: "/dev/md0" :: [] ∧ scenarioD.open_result = .ok 3 ∧
    scenarioD.GET_ARRAY_INFO = .error ENODEV ∧
    main linuxFlags scenarioD = some
      ⟨[Event.sys_open "/dev/md0", Event.ioctl_GET_ARRAY_INFO,
        Event.stderr (Diag.not_active "/dev/md0"), Event.sys_close, Event.exit 1], 1⟩ := by
  obtain ⟨out, h1, h2, h3, -⟩ :=
    C5_array_query_failure_is_fatal linuxFlags scenarioD "md_stat" "/dev/md0" [] 3 ENODEV
      rfl rfl rfl
  refine ⟨rfl, rfl, rfl, ?_⟩
  rw [h1]
  cases out
  simp only at h2 h3
  subst h2 h3
  rfl

end MdStat

namespace UdevMonitor

theorem timeline_append (a b : List Call) : timeline (a ++ b) = timeline a ++ timeline b := by
  simp [timeline]

theorem timeline_foreach (env : Env) (paths : List String) :
    timeline (paths.flatMap (foreachBody env)) = paths.map env.udev_device_new_from_syspath := by
  induction paths with
  | nil => rfl
  | cons p ps ih =>
    rw [List.flatMap_cons, timeline_append, ih]
    rfl

theorem timeline_pollLoop (polls : List Poll) :
    timeline (pollLoop polls) = (polls.filterMap delivered).map some := by
  induction polls with
  | nil => rfl
  | cons p ps ih =>
    rw [pollLoop, timeline_append, ih]
    cases p <;> rfl

theorem pollLoop_append (a b : List Poll) : pollLoop (a ++ b) = pollLoop a ++ pollLoop b := by
  induction a with
  | nil => rfl
  | cons p ps ih => simp [pollLoop, ih]

theorem diagnostics_append (a b : List Call) :
    diagnostics (a ++ b) = diagnostics a + diagnostics b := by
  simp [diagnostics]

theorem diagnostics_foreach (env : Env) (paths : List String) :
    diagnostics (paths.flatMap (foreachBody env)) = 0 := by
  induction paths with
  | nil => rfl
  | cons p ps ih =>
    rw [List.flatMap_cons, diagnostics_append, ih]
    simp [diagnostics, foreachBody]

theorem diagnostics_pollLoop (polls : List Poll) :
    diagnostics (pollLoop polls) = polls.count Poll.receive_failed := by
  induction polls with
  | nil => rfl
  | cons p ps ih =>
    rw [pollLoop, diagnostics_append, ih]
    cases p <;> simp [diagnostics, pollPass, List.count_cons, Nat.add_comm]

theorem main_running {env : Env} (polls : List Poll) (hudev : env.udev_new = true)
    (hmon : env.udev_monitor_new_from_netlink = true) :
    main env polls = some
      { trace := [Call.udev_new true] ++ subscribe env ++ enumerate env ++ pollLoop polls
        status := none } := by
  simp only [main, hudev, hmon, if_true]

theorem timeline_running (env : Env) (polls : List Poll) :
    timeline ([Call.udev_new true] ++ subscribe env ++ enumerate env ++ pollLoop polls) =
      env.devices.map env.udev_device_new_from_syspath ++
        (polls.filterMap delivered).map some := by
  simp only [enumerate, timeline_append, timeline_foreach, timeline_pollLoop]
  simp [timeline, subscribe, item]

/-- C8: when the udev context and the monitor are created, for every
enumeration result and every finite sequence of poll outcomes the process is
still running after the last pass and the emitted timeline is one item per
enumerated list entry, in list order, followed by one item per received
device, in the order received; a failed receive prints one diagnostic and
emits no item, and the passes after it run as they would have: a longer
sequence of outcomes only appends calls.  Scenario C: three enumerated
devices, then an added and a changed event, give three initial items, then
added, then changed. -/
theorem C8_timeline_is_snapshot_then_events (env : Env) (polls : List Poll)
    (hudev : env.udev_new = true) (hmon : env.udev_monitor_new_from_netlink = true) :
    ∃ run, main env polls = some run ∧
    run.status = none ∧
    timeline run.trace =
      env.devices.map env.udev_device_new_from_syspath ++
        (polls.filterMap delivered).map some ∧
    diagnostics run.trace = polls.count Poll.receive_failed ∧
    (∀ later, (main env (polls ++ later)).map Run.trace =
      some (run.trace ++ pollLoop later)) ∧
    (∀ later, (main env (polls ++ [Poll.receive_failed] ++ later)).map
        (fun r => timeline r.trace) =
      (main env (polls ++ later)).map (fun r => timeline r.trace)) ∧
    (main scenarioC scenarioCPolls).map (fun r => timeline r.trace) =
      some [some ⟨"/sys/block/sda", none, 0⟩, some ⟨"/sys/block/sdb", none, 0⟩,
       some ⟨"/sys/block/sdc", none, 0⟩, some ⟨"/sys/block/sdd", some "add", 1001⟩,
       some ⟨"/sys/block/sdd", some "change", 1002⟩] := by
  refine ⟨_, main_running polls hudev hmon, rfl, timeline_running env polls, ?_, ?_, ?_,
    by decide⟩
  · simp only [enumerate, diagnostics_append, diagnostics_foreach, diagnostics_pollLoop]
    simp [diagnostics, subscribe]
  · intro later
    rw [main_running _ hudev hmon]
    simp [pollLoop_append]
  · intro later
    rw [main_running _ hudev hmon, main_running _ hudev hmon]
    simp only [Option.map_some', timeline_running]
    simp [List.filterMap_append, delivered]

/-- Witness of C8: Scenario C. -/
theorem C8_timeline_is_snapshot_then_events_witness :
    scenarioC.udev_new = true ∧ scenarioC.udev_monitor_new_from_netlink = true ∧
    ∃ run, main scenarioC scenarioCPolls = some run ∧
      run.status = none ∧
      timeline run.trace =
        scenarioC.devices.map scenarioC.udev_device_new_from_syspath ++
          (scenarioCPolls.filterMap delivered).map some := by
  obtain ⟨run, h1, h2, h3, -⟩ :=
    C8_timeline_is_snapshot_then_events scenarioC scenarioCPolls rfl rfl
  exact ⟨rfl, rfl, run, h1, h2, h3⟩

theorem main_entry {env : Env} (hudev : env.udev_new = true) :
    main env [] = some
      { trace := [Call.udev_new true] ++ subscribe env ++ enumerate env
        status := none } := by
  cases hm : env.udev_monitor_new_from_netlink <;>
    simp [main, hudev, hm, pollLoop]

theorem main_exit {env : Env} (polls : List Poll) (hudev : env.udev_new = false) :
    main env polls = some
      { trace := [Call.udev_new false, Call.printf_cant_create_udev, Call.exit 1]
        status := some 1 } := by
  simp [main, hudev]

theorem main_null_monitor {env : Env} (p : Poll) (polls : List Poll)
    (hudev : env.udev_new = true) (hmon : env.udev_monitor_new_from_netlink = false) :
    main env (p :: polls) = none := by
  simp only [main, hudev, hmon, if_true]

theorem subscribedFirst_running (env : Env) (rest : List Call) :
    subscribedFirst env ([Call.udev_new true] ++ subscribe env ++ rest) := by
  intro i c hc hs
  refine ⟨?_, rfl, rfl, rfl⟩
  by_contra hle
  have hi : i = 0 ∨ i = 1 ∨ i = 2 ∨ i = 3 := by omega
  rcases hi with h | h | h | h <;> subst h <;>
    simp [subscribe] at hc <;> subst hc <;> simp [isSnapshotCall] at hs

theorem subscribedFirst_exit (env : Env) :
    subscribedFirst env [Call.udev_new false, Call.printf_cant_create_udev, Call.exit 1] := by
  intro i c hc hs
  exfalso
  have hi : i = 0 ∨ i = 1 ∨ i = 2 ∨ 3 ≤ i := by omega
  rcases hi with h | h | h | h
  · subst h; simp at hc; subst hc; simp [isSnapshotCall] at hs
  · subst h; simp at hc; subst hc; simp [isSnapshotCall] at hs
  · subst h; simp at hc; subst hc; simp [isSnapshotCall] at hs
  · rw [List.getElem?_eq_none (by simpa using h)] at hc
    cases hc

theorem main_subscribedFirst {env : Env} {polls : List Poll} {run : Run}
    (hrun : main env polls = some run) : subscribedFirst env run.trace := by
  cases hu : env.udev_new with
  | false =>
    rw [main_exit polls hu] at hrun
    cases hrun
    exact subscribedFirst_exit env
  | true =>
    cases hm : env.udev_monitor_new_from_netlink with
    | true =>
      rw [main_running polls hu hm] at hrun
      cases hrun
      simpa [List.append_assoc] using
        subscribedFirst_running env (enumerate env ++ pollLoop polls)
    | false =>
      cases polls with
      | nil =>
        rw [main_entry hu] at hrun
        cases hrun
        simpa [List.append_assoc] using subscribedFirst_running env (enumerate env)
      | cons p ps =>
        rw [main_null_monitor p ps hu hm] at hrun
        cases hrun

/-- C6 (claim as stated fails): `udev_monitor_enable_receiving` returns -1,
so the event channel is not armed; the result is not looked at, and the
enumeration scan is made and the device found is emitted as an initial item
all the same. -/
theorem C6_enumeration_without_armed_channel :
    (¬ armed enableFails) ∧
    ∃ run, main enableFails [] = some run ∧
      run.trace[3]? = some (Call.udev_monitor_enable_receiving (-1)) ∧
      run.trace[7]? = some Call.udev_enumerate_scan_devices ∧
      run.trace[11]? = some (Call.print_device_props (some ⟨"/sys/block/sda", none, 0⟩)) :=
  ⟨by decide, _, rfl, rfl, rfl, rfl⟩

/-- C6 (amended): in every run the calls of the monitor section (creation of
the monitor, subsystem filter, enabling of receiving) are made, in this
order, before the enumeration scan and before any item is emitted: in the run
up to the entry of the polling loop, which every execution makes, and in every
longer run, a call that belongs to making the snapshot stands behind the
first four calls, which are `udev_new` and these three.  When the context is
created the scan is the eighth call.  When the monitor is created and the
enabling call does not fail, the channel is armed before the scan: the
creation recorded at the second call succeeded and the enabling call recorded
at the fourth returned a value that is not negative.  When the context is not
created neither section is reached. -/
theorem C6_subscribe_calls_before_enumeration (env : Env) (polls : List Poll) :
    ∃ entry, main env [] = some entry ∧
      subscribedFirst env entry.trace ∧
      (∀ run, main env polls = some run →
        subscribedFirst env run.trace ∧ ∃ rest, run.trace = entry.trace ++ rest) ∧
      (env.udev_new = true → entry.trace[7]? = some Call.udev_enumerate_scan_devices) ∧
      (env.udev_new = true → armed env →
        ∃ run r, main env polls = some run ∧ 0 ≤ r ∧
          run.trace[1]? = some (Call.udev_monitor_new_from_netlink true) ∧
          run.trace[3]? = some (Call.udev_monitor_enable_receiving r) ∧
          run.trace[7]? = some Call.udev_enumerate_scan_devices) ∧
      (env.udev_new = false →
        entry.trace = [Call.udev_new false, Call.printf_cant_create_udev, Call.exit 1] ∧
        ∀ c, c ∈ entry.trace → isSnapshotCall c = false ∧
          ∀ r, c ≠ Call.udev_monitor_enable_receiving r) := by
  cases hu : env.udev_new with
  | false =>
    refine ⟨_, main_exit [] hu, subscribedFirst_exit env, ?_, ?_, ?_, ?_⟩
    · intro run hrun
      rw [main_exit polls hu] at hrun
      cases hrun
      exact ⟨subscribedFirst_exit env, [], by simp⟩
    · intro h
      cases h
    · intro h
      cases h
    · intro _
      refine ⟨rfl, ?_⟩
      intro c hc
      simp only [List.mem_cons, List.mem_singleton, List.not_mem_nil, or_false] at hc
      rcases hc with h | h | h <;> subst h <;> exact ⟨rfl, fun r hr => by cases hr⟩
  | true =>
    refine ⟨_, main_entry hu, ?_, ?_, fun _ => rfl, ?_, ?_⟩
    · simpa [List.append_assoc] using subscribedFirst_running env (enumerate env)
    · intro run hrun
      refine ⟨main_subscribedFirst hrun, ?_⟩
      cases hm : env.udev_monitor_new_from_netlink with
      | true =>
        rw [main_running polls hu hm] at hrun
        cases hrun
        exact ⟨pollLoop polls, rfl⟩
      | false =>
        cases polls with
        | nil =>
          rw [main_entry hu] at hrun
          cases hrun
          exact ⟨[], by simp⟩
        | cons p ps =>
          rw [main_null_monitor p ps hu hm] at hrun
          cases hrun
    · intro _ harmed
      obtain ⟨hm, hr⟩ := harmed
      refine ⟨_, env.udev_monitor_enable_receiving, main_running polls hu hm, hr, ?_, rfl, rfl⟩
      show some (Call.udev_monitor_new_from_netlink env.udev_monitor_new_from_netlink) = _
      rw [hm]
    · intro h
      cases h

/-- C7 (claim as stated fails): neither way of failing to arm the
subscription is fatal.  When `udev_monitor_enable_receiving` returns -1 the
process does not exit: the scan is made after the failed call, the device
found is emitted, and the polling loop runs and emits the device it receives.
When `udev_monitor_new_from_netlink` returns NULL the process does not exit
either: the scan is made and the device found is emitted before the polling
loop is entered. -/
theorem C7_failed_subscription_not_fatal :
    (enableFails.udev_monitor_enable_receiving < 0 ∧
      ∃ run, main enableFails [Poll.received ⟨"/sys/block/sdb", some "add", 7⟩] = some run ∧
        run.status = none ∧
        run.trace[3]? = some (Call.udev_monitor_enable_receiving (-1)) ∧
        run.trace[7]? = some Call.udev_enumerate_scan_devices ∧
        timeline run.trace =
          [some ⟨"/sys/block/sda", none, 0⟩, some ⟨"/sys/block/sdb", some "add", 7⟩]) ∧
    (monitorNull.udev_monitor_new_from_netlink = false ∧
      ∃ run, main monitorNull [] = some run ∧
        run.status = none ∧
        run.trace[1]? = some (Call.udev_monitor_new_from_netlink false) ∧
        run.trace[7]? = some Call.udev_enumerate_scan_devices ∧
        timeline run.trace = [some ⟨"/sys/block/sda", none, 0⟩]) :=
  ⟨⟨by decide, _, rfl, rfl, rfl, rfl, by decide⟩, ⟨rfl, _, rfl, rfl, rfl, rfl, by decide⟩⟩

/-- C7 (amended): the one setup failure that is fatal is the failure to create
the udev context: when `udev_new` returns NULL the process prints its message
and exits with code 1 before the monitor section and before the enumeration,
so no enumeration call is made and no item is emitted.  The results of
`udev_monitor_new_from_netlink` and of `udev_monitor_enable_receiving` are
not tested: when the context is created, whatever these two calls return,
the process does not exit, reaches the polling loop with the scan made and
one initial item emitted per enumerated entry; when the monitor is created it
runs the polling loop whatever the enabling call returned; when the monitor
is NULL the first pass of the loop is undefined. -/
theorem C7_only_context_failure_is_fatal (env : Env) (polls : List Poll) :
    (env.udev_new = false →
      main env polls = some
        { trace := [Call.udev_new false, Call.printf_cant_create_udev, Call.exit 1]
          status := some 1 } ∧
      ∀ run, main env polls = some run →
        run.status = some 1 ∧ timeline run.trace = [] ∧
        (∀ c, c ∈ run.trace → isSnapshotCall c = false) ∧
        (∀ ok, Call.udev_monitor_new_from_netlink ok ∉ run.trace) ∧
        (∀ r, Call.udev_monitor_enable_receiving r ∉ run.trace)) ∧
    (env.udev_new = true →
      ∃ entry, main env [] = some entry ∧ entry.status = none ∧
        entry.trace[1]? =
          some (Call.udev_monitor_new_from_netlink env.udev_monitor_new_from_netlink) ∧
        entry.trace[3]? =
          some (Call.udev_monitor_enable_receiving env.udev_monitor_enable_receiving) ∧
        entry.trace[7]? = some Call.udev_enumerate_scan_devices ∧
        timeline entry.trace = env.devices.map env.udev_device_new_from_syspath ∧
        (∀ c, c ∈ entry.trace → ∀ code, c ≠ Call.exit code)) ∧
    (env.udev_new = true → env.udev_monitor_new_from_netlink = true →
      ∃ run, main env polls = some run ∧ run.status = none ∧
        run.trace[7]? = some Call.udev_enumerate_scan_devices ∧
        timeline run.trace =
          env.devices.map env.udev_device_new_from_syspath ++
            (polls.filterMap delivered).map some) ∧
    (env.udev_new = true → env.udev_monitor_new_from_netlink = false →
      ∀ p later, main env (p :: later) = none) := by
  refine ⟨?_, ?_, ?_, ?_⟩
  · intro hu
    refine ⟨main_exit polls hu, ?_⟩
    intro run hrun
    rw [main_exit polls hu] at hrun
    cases hrun
    refine ⟨rfl, rfl, ?_, ?_, ?_⟩
    · intro c hc
      simp only [List.mem_cons, List.mem_singleton, List.not_mem_nil, or_false] at hc
      rcases hc with h | h | h <;> subst h <;> rfl
    · intro ok hr
      simp at hr
    · intro r hr
      simp at hr
  · intro hu
    refine ⟨_, main_entry hu, rfl, rfl, rfl, rfl, ?_, ?_⟩
    · have h := timeline_running env []
      simpa [pollLoop] using h
    · intro c hc code hcode
      subst hcode
      simp only [List.mem_append, List.mem_singleton, subscribe, enumerate, List.mem_cons,
        List.not_mem_nil, or_false, List.mem_flatMap, foreachBody] at hc
      simp at hc
  · intro hu hm
    exact ⟨_, main_running polls hu hm, rfl, rfl, timeline_running env polls⟩
  · intro hu hm p later
    exact main_null_monitor p later hu hm

end UdevMonitor
